import Mathlib

/-!
# RISC-V2A core peripheral access (`core_riscv.h`)

A shallow embedding of the PFIC driver and of the CSR access it uses.

* Machine words are natural numbers.  The target is RV32, so `unsigned long` and
  `uint32_t` are 32 bits wide: every C operation whose mathematical result could
  leave the 32-bit range (`<<`, `~`, conversions of parameters) is truncated
  explicitly with `u32` / `u8`.
* The memory-mapped register file `PFIC_Type` is a record; its register arrays
  are functions on `Fin n`, `n` being the declared length.  An access whose index
  is not below the declared length is undefined in C; the operations return
  `none` there.
* `IRQn_Type` and the device's reaction to stores into its write-only registers
  are not part of `core_riscv.h`; see the comments at their definitions.
-/

namespace CoreRiscv

/-! ## Machine arithmetic -/

/-- Conversion to `uint32_t` / `unsigned long` (32 bits on RV32). -/
def u32 (x : Nat) : Nat := x % 2 ^ 32

/-- Conversion to `uint8_t`. -/
def u8 (x : Nat) : Nat := x % 2 ^ 8

/-- The C operator `~` on a 32-bit unsigned operand. -/
def not32 (x : Nat) : Nat := 2 ^ 32 - 1 - u32 x

/-- The C operator `<<` on a 32-bit unsigned left operand. -/
def shl32 (x n : Nat) : Nat := u32 (x <<< n)

/-! ## Common definitions -/

/-- Modelled from the spec: the interrupt number type.  Its declaration lives in
the device header, not in `core_riscv.h`; the data model gives an interrupt number
as a non-negative integer identifier (in [0, 255] or the platform's legal subset).
The range is a hypothesis of the theorems, not part of the type. -/
abbrev IRQn_Type := Nat

/-- The enumeration `typedef enum {DISABLE = 0, ENABLE = !DISABLE} FunctionalState`,
by its integer value. -/
abbrev FunctionalState := Nat

def DISABLE : FunctionalState := 0
def ENABLE : FunctionalState := 1

/-! ## Programmable Fast Interrupt Controller -/

/-- Memory-mapped PFIC register file (the reserved gaps carry no state). -/
structure PFIC_Type where
  ISR : Fin 8 → Nat
  IPR : Fin 8 → Nat
  ITHRESDR : Nat
  CFGR : Nat
  GISR : Nat
  VTFIDR : Nat
  VTFADDRR : Fin 4 → Nat
  IENR : Fin 8 → Nat
  IRER : Fin 8 → Nat
  IPSR : Fin 8 → Nat
  IPRR : Fin 8 → Nat
  IACTR : Fin 8 → Nat
  IPRIOR : Fin 64 → Nat
  SCTLR : Nat

def PFIC_CFGR_RESETSYS : Nat := 0x00000080
def PFIC_CFGR_KEYCODE_KEY1 : Nat := 0xFA050000
def PFIC_CFGR_KEYCODE_KEY2 : Nat := 0xBCAF0000
def PFIC_CFGR_KEYCODE_KEY3 : Nat := 0xBEEF0000

def PFIC_SCTLR_SLEEPONEXIT : Nat := 0x00000002
def PFIC_SCTLR_SLEEPDEEP : Nat := 0x00000004
def PFIC_SCTLR_WFITOWFE : Nat := 0x00000008
def PFIC_SCTLR_SEVONPEND : Nat := 0x00000010
def PFIC_SCTLR_SETEVENT : Nat := 0x00000020
def PFIC_SCTLR_SYSRESET : Nat := 0x80000000

def PFIC_VTFIDR_VTFID : Nat := 0x000000FF

def PFIC_VTFADDRR_ADDR : Nat := 0xFFFFFFFE
def PFIC_VTFADDRR_VTFEN : Nat := 0x00000001

def PFIC_IPRIOR_PRIO : Nat := 0x000000FF

/-- Interrupt number from IRQn: `((uint32_t)(IRQn) & 0x1FUL)`. -/
def PFIC_IRQn_NUM (IRQn : IRQn_Type) : Nat := u32 IRQn &&& 0x1F

/-- Interrupt register offset from IRQn: `((uint32_t)(IRQn) >> 5)`. -/
def PFIC_IRQn_REG (IRQn : IRQn_Type) : Nat := u32 IRQn >>> 5

def PFIC_INTSYSCR_HWSTKEN : Nat := 0x00000001
def PFIC_INTSYSCR_INESTEN : Nat := 0x00000002
def PFIC_INTSYSCR_EABIEN : Nat := 0x00000004

/-- Store `v` into element `i` of a register array. -/
def setIdx {n : Nat} (a : Fin n → Nat) (i : Fin n) (v : Nat) : Fin n → Nat :=
  fun j => if j = i then v else a j

/-- Modelled from the spec: the device's reaction to a store of `w` into the
write-only register `IENR[i]` (hardware behaviour, absent from the source).
Write-1-to-set: the word is OR-ed into the enable status `ISR[i]`; the `IENR`
field records the word that was stored. -/
def store_IENR (s : PFIC_Type) (i : Fin 8) (w : Nat) : PFIC_Type :=
  { s with IENR := setIdx s.IENR i w, ISR := setIdx s.ISR i (s.ISR i ||| w) }

/-- Modelled from the spec: the device's reaction to a store of `w` into the
write-only register `IRER[i]` (hardware behaviour, absent from the source).
Write-1-to-clear: the bits of the word are cleared in the enable status `ISR[i]`;
the `IRER` field records the word that was stored. -/
def store_IRER (s : PFIC_Type) (i : Fin 8) (w : Nat) : PFIC_Type :=
  { s with IRER := setIdx s.IRER i w, ISR := setIdx s.ISR i (s.ISR i &&& not32 w) }

/-- Modelled from the spec: the device's reaction to a store of `w` into the
write-only register `IPSR[i]` (hardware behaviour, absent from the source).
Write-1-to-set on the pending status `IPR[i]`. -/
def store_IPSR (s : PFIC_Type) (i : Fin 8) (w : Nat) : PFIC_Type :=
  { s with IPSR := setIdx s.IPSR i w, IPR := setIdx s.IPR i (s.IPR i ||| w) }

/-- Modelled from the spec: the device's reaction to a store of `w` into the
write-only register `IPRR[i]` (hardware behaviour, absent from the source).
Write-1-to-clear on the pending status `IPR[i]`. -/
def store_IPRR (s : PFIC_Type) (i : Fin 8) (w : Nat) : PFIC_Type :=
  { s with IPRR := setIdx s.IPRR i w, IPR := setIdx s.IPR i (s.IPR i &&& not32 w) }

/-- Enable Interrupt:
`PFIC->IENR[PFIC_IRQn_REG(IRQn)] = 1UL << PFIC_IRQn_NUM(IRQn);` -/
def PFIC_EnableIRQ (s : PFIC_Type) (IRQn : IRQn_Type) : Option PFIC_Type :=
  if h : PFIC_IRQn_REG IRQn < 8 then
    some (store_IENR s ⟨PFIC_IRQn_REG IRQn, h⟩ (shl32 1 (PFIC_IRQn_NUM IRQn)))
  else none

/-- Disable Interrupt:
`PFIC->IRER[PFIC_IRQn_REG(IRQn)] = 1UL << PFIC_IRQn_NUM(IRQn);` -/
def PFIC_DisableIRQ (s : PFIC_Type) (IRQn : IRQn_Type) : Option PFIC_Type :=
  if h : PFIC_IRQn_REG IRQn < 8 then
    some (store_IRER s ⟨PFIC_IRQn_REG IRQn, h⟩ (shl32 1 (PFIC_IRQn_NUM IRQn)))
  else none

/-- Get Interrupt Enable State:
`(PFIC->ISR[PFIC_IRQn_REG(IRQn)] & (1UL << PFIC_IRQn_NUM(IRQn))) ? 1UL : 0UL`. -/
def PFIC_GetStatusIRQ (s : PFIC_Type) (IRQn : IRQn_Type) : Option Nat :=
  if h : PFIC_IRQn_REG IRQn < 8 then
    some (if s.ISR ⟨PFIC_IRQn_REG IRQn, h⟩ &&& shl32 1 (PFIC_IRQn_NUM IRQn) ≠ 0 then 1 else 0)
  else none

/-- Get Interrupt Pending State:
`(PFIC->IPR[PFIC_IRQn_REG(IRQn)] & (1UL << PFIC_IRQn_NUM(IRQn))) ? 1UL : 0UL`. -/
def PFIC_GetPendingIRQ (s : PFIC_Type) (IRQn : IRQn_Type) : Option Nat :=
  if h : PFIC_IRQn_REG IRQn < 8 then
    some (if s.IPR ⟨PFIC_IRQn_REG IRQn, h⟩ &&& shl32 1 (PFIC_IRQn_NUM IRQn) ≠ 0 then 1 else 0)
  else none

/-- Set Interrupt Pending State:
`PFIC->IPSR[PFIC_IRQn_REG(IRQn)] = 1UL << PFIC_IRQn_NUM(IRQn);` -/
def PFIC_SetPendingIRQ (s : PFIC_Type) (IRQn : IRQn_Type) : Option PFIC_Type :=
  if h : PFIC_IRQn_REG IRQn < 8 then
    some (store_IPSR s ⟨PFIC_IRQn_REG IRQn, h⟩ (shl32 1 (PFIC_IRQn_NUM IRQn)))
  else none

/-- Clear Interrupt Pending State:
`PFIC->IPRR[PFIC_IRQn_REG(IRQn)] = 1UL << PFIC_IRQn_NUM(IRQn);` -/
def PFIC_ClearPendingIRQ (s : PFIC_Type) (IRQn : IRQn_Type) : Option PFIC_Type :=
  if h : PFIC_IRQn_REG IRQn < 8 then
    some (store_IPRR s ⟨PFIC_IRQn_REG IRQn, h⟩ (shl32 1 (PFIC_IRQn_NUM IRQn)))
  else none

/-- Get Interrupt Active State:
`(PFIC->IACTR[PFIC_IRQn_REG(IRQn)] & (1UL << PFIC_IRQn_NUM(IRQn))) ? 1UL : 0UL`. -/
def PFIC_GetActive (s : PFIC_Type) (IRQn : IRQn_Type) : Option Nat :=
  if h : PFIC_IRQn_REG IRQn < 8 then
    some (if s.IACTR ⟨PFIC_IRQn_REG IRQn, h⟩ &&& shl32 1 (PFIC_IRQn_NUM IRQn) ≠ 0 then 1 else 0)
  else none

/-- Set Interrupt Priority.
```
register uint32_t ulTmp = PFIC->IPRIOR[(IRQn >> 2)];
register uint8_t ucShf = (IRQn & 0x3UL) << 3;
ulTmp &= ~(PFIC_IPRIOR_PRIO << ucShf);
ulTmp |= (uint32_t)(priority & 0xC0UL) << ucShf;
PFIC->IPRIOR[(IRQn >> 2)] = ulTmp;
```
`priority` is a `uint8_t` parameter. -/
def PFIC_SetPriority (s : PFIC_Type) (IRQn : IRQn_Type) (priority : Nat) :
    Option PFIC_Type :=
  if h : IRQn >>> 2 < 64 then
    let ulTmp := s.IPRIOR ⟨IRQn >>> 2, h⟩
    let ucShf := u8 (shl32 (u32 IRQn &&& 0x3) 3)
    let ulTmp := ulTmp &&& not32 (shl32 PFIC_IPRIOR_PRIO ucShf)
    let ulTmp := ulTmp ||| shl32 (u32 (u8 priority &&& 0xC0)) ucShf
    some { s with IPRIOR := setIdx s.IPRIOR ⟨IRQn >>> 2, h⟩ ulTmp }
  else none

/-- The array index `(channel & 0x3UL)` of a `uint8_t` channel; it is always
below the length of `VTFADDRR`. -/
def vtfIndex (channel : Nat) : Fin 4 :=
  ⟨u8 channel &&& 0x3, Nat.lt_succ_of_le Nat.and_le_right⟩

/-- Configure Vector-Table-Free (VTF) Interrupt Handler.
```
register uint32_t ulTmp = PFIC->VTFIDR;
register uint8_t ucShf = (channel & 0x3UL) << 3;
ulTmp &= ~(PFIC_VTFIDR_VTFID << ucShf);
ulTmp |= (uint32_t)(IRQn & PFIC_VTFIDR_VTFID) << ucShf;
PFIC->VTFIDR = ulTmp;
PFIC->VTFADDRR[(channel & 0x3UL)] = (address & PFIC_VTFADDRR_ADDR);
```
`channel` is a `uint8_t` parameter, `address` a `uint32_t` parameter. -/
def PFIC_ConfigFastIRQ (s : PFIC_Type) (channel address : Nat) (IRQn : IRQn_Type) :
    PFIC_Type :=
  let ulTmp := s.VTFIDR
  let ucShf := u8 (shl32 (u8 channel &&& 0x3) 3)
  let ulTmp := ulTmp &&& not32 (shl32 PFIC_VTFIDR_VTFID ucShf)
  let ulTmp := ulTmp ||| shl32 (u32 (u32 IRQn &&& PFIC_VTFIDR_VTFID)) ucShf
  let s1 := { s with VTFIDR := ulTmp }
  let v := u32 address &&& PFIC_VTFADDRR_ADDR
  { s1 with VTFADDRR := setIdx s1.VTFADDRR (vtfIndex channel) v }

/-- Enable Vector-Table-Free (VTF) Interrupt Handler:
`PFIC->VTFADDRR[(channel & 0x3UL)] |= PFIC_VTFADDRR_VTFEN;` -/
def PFIC_EnableFastIRQ (s : PFIC_Type) (channel : Nat) : PFIC_Type :=
  let v := s.VTFADDRR (vtfIndex channel) ||| PFIC_VTFADDRR_VTFEN
  { s with VTFADDRR := setIdx s.VTFADDRR (vtfIndex channel) v }

/-- Disable Vector-Table-Free (VTF) Interrupt Handler:
`PFIC->VTFADDRR[(channel & 0x3UL)] &= ~PFIC_VTFADDRR_VTFEN;` -/
def PFIC_DisableFastIRQ (s : PFIC_Type) (channel : Nat) : PFIC_Type :=
  let v := s.VTFADDRR (vtfIndex channel) &&& not32 PFIC_VTFADDRR_VTFEN
  { s with VTFADDRR := setIdx s.VTFADDRR (vtfIndex channel) v }

/-- Initiate System Reset.
```
#ifndef USE_PFIC_SCTLR_SYSRESET
  PFIC->CFGR = PFIC_CFGR_KEYCODE_KEY3 | PFIC_CFGR_RESETSYS;
#else
  PFIC->SCTLR |= PFIC_SCTLR_SYSRESET;
#endif
```
The first argument tells whether the build defines `USE_PFIC_SCTLR_SYSRESET`.  The
function body is this one store; what the device does with the request is not part
of the source. -/
def PFIC_SystemReset (USE_PFIC_SCTLR_SYSRESET : Bool) (s : PFIC_Type) : PFIC_Type :=
  if USE_PFIC_SCTLR_SYSRESET = false then
    { s with CFGR := PFIC_CFGR_KEYCODE_KEY3 ||| PFIC_CFGR_RESETSYS }
  else
    { s with SCTLR := s.SCTLR ||| PFIC_SCTLR_SYSRESET }

/-! ## Core functions -/

/-- Set Event Flag: `PFIC->SCTLR |= PFIC_SCTLR_SETEVENT;` -/
def __SEV (s : PFIC_Type) : PFIC_Type :=
  { s with SCTLR := s.SCTLR ||| PFIC_SCTLR_SETEVENT }

/-- The instruction `wfi`: the core halts until it is woken; the instruction stores
to no PFIC register. -/
def wfi (s : PFIC_Type) : PFIC_Type := s

/-- Wait For Interrupt: `PFIC->SCTLR &= ~PFIC_SCTLR_WFITOWFE;` followed by the
instruction `wfi`.  The result is the register bank with which `wfi` is issued. -/
def __WFI (s : PFIC_Type) : PFIC_Type :=
  wfi { s with SCTLR := s.SCTLR &&& not32 PFIC_SCTLR_WFITOWFE }

/-- Wait For Event: `PFIC->SCTLR |= PFIC_SCTLR_WFITOWFE;` followed by the
instruction `wfi`.  The result is the register bank with which `wfi` is issued. -/
def __WFE (s : PFIC_Type) : PFIC_Type :=
  wfi { s with SCTLR := s.SCTLR ||| PFIC_SCTLR_WFITOWFE }

/-! ## Machine register access -/

/-- The CSR file: the 32-bit value held by each CSR address. -/
abbrev CSR_File := Nat → Nat

/-- The instruction `csrw csr, value`. -/
def csrw (c : CSR_File) (csr value : Nat) : CSR_File :=
  fun a => if a = csr then u32 value else c a

/-- The instruction `csrr result, csr`. -/
def csrr (c : CSR_File) (csr : Nat) : Nat := c csr

/-- `TEMPLATE_CSR_GETTER_FN(__get_INTSYSCR, "0x804")`. -/
def __get_INTSYSCR (c : CSR_File) : Nat := csrr c 0x804

/-- `TEMPLATE_CSR_SETTER_FN(__set_INTSYSCR, "0x804")`. -/
def __set_INTSYSCR (c : CSR_File) (value : Nat) : CSR_File := csrw c 0x804 value

/-- Configure EABI support, HPE and Interrupt Nesting function.
```
__set_INTSYSCR(
  ((eabi != DISABLE) ? 0 : PFIC_INTSYSCR_EABIEN)  |
  ((hpe != DISABLE)  ? 0 : PFIC_INTSYSCR_HWSTKEN) |
  ((nest != DISABLE) ? 0 : PFIC_INTSYSCR_INESTEN));
``` -/
def PFIC_Config (c : CSR_File) (eabi hpe nest : FunctionalState) : CSR_File :=
  __set_INTSYSCR c
    ((if eabi ≠ DISABLE then 0 else PFIC_INTSYSCR_EABIEN) |||
     (if hpe ≠ DISABLE then 0 else PFIC_INTSYSCR_HWSTKEN) |||
     (if nest ≠ DISABLE then 0 else PFIC_INTSYSCR_INESTEN))

/-! ## Observations used to state the properties -/

/-- Byte number `k` of a word: bits `8k+7 .. 8k`. -/
def byteOf (w k : Nat) : Nat := (w >>> (8 * k)) &&& 0xFF

/-- The all-zero register bank (the reset state). -/
def resetState : PFIC_Type :=
  { ISR := fun _ => 0, IPR := fun _ => 0, ITHRESDR := 0, CFGR := 0, GISR := 0,
    VTFIDR := 0, VTFADDRR := fun _ => 0, IENR := fun _ => 0, IRER := fun _ => 0,
    IPSR := fun _ => 0, IPRR := fun _ => 0, IACTR := fun _ => 0,
    IPRIOR := fun _ => 0, SCTLR := 0 }

/-- A register bank in which every line is enabled, every fast channel is enabled
with handler address `0x2000_0100` and mapped to line 0x11, and every priority byte
is `0xC0`. -/
def enabledState : PFIC_Type :=
  { resetState with
    ISR := fun _ => 0xFFFFFFFF
    VTFADDRR := fun _ => 0x20000101
    VTFIDR := 0x11111111
    IPRIOR := fun _ => 0xC0C0C0C0 }

/-- A register bank in which line 37 is enabled and active and line 36 is pending. -/
def busyState : PFIC_Type :=
  { resetState with
    ISR := fun _ => 0x20
    IPR := fun _ => 0x10
    IACTR := fun _ => 0x20 }

/-! ## Layout of the register file -/

/-- The members of `PFIC_Type`, reserved gaps included. -/
inductive PFIC_Member where
  | ISR | IPR | ITHRESDR | RESERVED | CFGR | GISR | VTFIDR | RESERVED0 | VTFADDRR
  | RESERVED1 | IENR | RESERVED2 | IRER | RESERVED3 | IPSR | RESERVED4 | IPRR
  | RESERVED5 | IACTR | RESERVED6 | IPRIOR | RESERVED7 | SCTLR
  deriving DecidableEq, Repr

/-- One member declaration: the member, the size in bytes of its element type
(4 for `uint32_t`, 1 for `uint8_t`; it is also the alignment of the type) and the
number of elements (1 for a scalar). -/
structure MemberDecl where
  member : PFIC_Member
  elemSize : Nat
  count : Nat

/-- The declaration `typedef struct { ... } PFIC_Type;`, in the declared order. -/
def PFIC_Type_decl : List MemberDecl :=
  [ ⟨.ISR, 4, 8⟩, ⟨.IPR, 4, 8⟩, ⟨.ITHRESDR, 4, 1⟩, ⟨.RESERVED, 4, 1⟩, ⟨.CFGR, 4, 1⟩,
    ⟨.GISR, 4, 1⟩, ⟨.VTFIDR, 4, 1⟩, ⟨.RESERVED0, 1, 12⟩, ⟨.VTFADDRR, 4, 4⟩,
    ⟨.RESERVED1, 1, 0x90⟩, ⟨.IENR, 4, 8⟩, ⟨.RESERVED2, 1, 0x60⟩, ⟨.IRER, 4, 8⟩,
    ⟨.RESERVED3, 1, 0x60⟩, ⟨.IPSR, 4, 8⟩, ⟨.RESERVED4, 1, 0x60⟩, ⟨.IPRR, 4, 8⟩,
    ⟨.RESERVED5, 1, 0x60⟩, ⟨.IACTR, 4, 8⟩, ⟨.RESERVED6, 1, 0xE0⟩, ⟨.IPRIOR, 4, 64⟩,
    ⟨.RESERVED7, 1, 0x810⟩, ⟨.SCTLR, 4, 1⟩ ]

/-- The declared number of elements of a member of `PFIC_Type`. -/
def countof (m : PFIC_Member) : Option Nat :=
  (PFIC_Type_decl.find? (fun d => decide (d.member = m))).map (fun d => d.count)

/-- The first multiple of `a` that is not below `off`. -/
def alignUp (off a : Nat) : Nat := (off + a - 1) / a * a

/-- The C layout rule: members are placed in declared order, each at the first
offset not below the end of its predecessor that is a multiple of its alignment.
`offsetofFrom ds off m` is the offset of member `m` when the members `ds` are laid
out starting at offset `off`. -/
def offsetofFrom : List MemberDecl → Nat → PFIC_Member → Option Nat
  | [], _, _ => none
  | d :: ds, off, m =>
    if d.member = m then some (alignUp off d.elemSize)
    else offsetofFrom ds (alignUp off d.elemSize + d.elemSize * d.count) m

/-- The byte offset of a member of `PFIC_Type`, that is `offsetof(PFIC_Type, m)`. -/
def offsetof (m : PFIC_Member) : Option Nat := offsetofFrom PFIC_Type_decl 0 m

/-! ## The two bus accesses of `PFIC_SetPriority` -/

/-- The load of `PFIC_SetPriority`: `ulTmp = PFIC->IPRIOR[(IRQn >> 2)]`. -/
def PFIC_SetPriority_load (s : PFIC_Type) (IRQn : IRQn_Type) : Option Nat :=
  if h : IRQn >>> 2 < 64 then some (s.IPRIOR ⟨IRQn >>> 2, h⟩) else none

/-- The rest of `PFIC_SetPriority` once `ulTmp` has been loaded: the two updates of
`ulTmp` in a register and the store `PFIC->IPRIOR[(IRQn >> 2)] = ulTmp`, performed
on the register bank `s` as it is at the time of the store. -/
def PFIC_SetPriority_store (s : PFIC_Type) (IRQn : IRQn_Type) (priority : Nat)
    (ulTmp : Nat) : Option PFIC_Type :=
  if h : IRQn >>> 2 < 64 then
    let ucShf := u8 (shl32 (u32 IRQn &&& 0x3) 3)
    let ulTmp := ulTmp &&& not32 (shl32 PFIC_IPRIOR_PRIO ucShf)
    let ulTmp := ulTmp ||| shl32 (u32 (u8 priority &&& 0xC0)) ucShf
    some { s with IPRIOR := setIdx s.IPRIOR ⟨IRQn >>> 2, h⟩ ulTmp }
  else none

/-- Two calls `PFIC_SetPriority(a, p)` and `PFIC_SetPriority(b, q)` interleaved so
that both loads happen before either store: load of the first call, load of the
second call, store of the first call, store of the second call. -/
def PFIC_SetPriority_interleaved (s : PFIC_Type) (a : IRQn_Type) (p : Nat)
    (b : IRQn_Type) (q : Nat) : Option PFIC_Type :=
  (PFIC_SetPriority_load s a).bind fun ta =>
  (PFIC_SetPriority_load s b).bind fun tb =>
  (PFIC_SetPriority_store s a p ta).bind fun s1 =>
  PFIC_SetPriority_store s1 b q tb

/-! ## The driver as a transition system -/

/-- The driver operations that store to the PFIC register bank, with their
arguments. -/
inductive PFIC_Op where
  | EnableIRQ (IRQn : IRQn_Type)
  | DisableIRQ (IRQn : IRQn_Type)
  | SetPendingIRQ (IRQn : IRQn_Type)
  | ClearPendingIRQ (IRQn : IRQn_Type)
  | SetPriority (IRQn : IRQn_Type) (priority : Nat)
  | ConfigFastIRQ (channel address : Nat) (IRQn : IRQn_Type)
  | EnableFastIRQ (channel : Nat)
  | DisableFastIRQ (channel : Nat)
  | SystemReset (USE_PFIC_SCTLR_SYSRESET : Bool)
  | SEV
  | WFI
  | WFE

/-- One driver call on the register bank. -/
def PFIC_Op.run (s : PFIC_Type) : PFIC_Op → Option PFIC_Type
  | .EnableIRQ IRQn => PFIC_EnableIRQ s IRQn
  | .DisableIRQ IRQn => PFIC_DisableIRQ s IRQn
  | .SetPendingIRQ IRQn => PFIC_SetPendingIRQ s IRQn
  | .ClearPendingIRQ IRQn => PFIC_ClearPendingIRQ s IRQn
  | .SetPriority IRQn priority => PFIC_SetPriority s IRQn priority
  | .ConfigFastIRQ channel address IRQn => some (PFIC_ConfigFastIRQ s channel address IRQn)
  | .EnableFastIRQ channel => some (PFIC_EnableFastIRQ s channel)
  | .DisableFastIRQ channel => some (PFIC_DisableFastIRQ s channel)
  | .SystemReset v => some (PFIC_SystemReset v s)
  | .SEV => some (__SEV s)
  | .WFI => some (__WFI s)
  | .WFE => some (__WFE s)

/-- The register bank after a sequence of driver calls, `none` if one of them
indexes outside a register array. -/
def runOps (s : PFIC_Type) : List PFIC_Op → Option PFIC_Type
  | [] => some s
  | op :: ops => (op.run s).bind fun s' => runOps s' ops

/-- The priority invariant: every byte of every `IPRIOR` word has its low 6 bits
equal to zero. -/
def PrioInv (s : PFIC_Type) : Prop :=
  ∀ (j : Fin 64) (k : Nat), k < 4 → byteOf (s.IPRIOR j) k &&& 0x3F = 0

/-! ## Bit-level lemmas -/

theorem testBit_u32 (x i : Nat) :
    (u32 x).testBit i = (decide (i < 32) && x.testBit i) := by
  rw [u32, Nat.testBit_mod_two_pow]

theorem testBit_u8 (x i : Nat) :
    (u8 x).testBit i = (decide (i < 8) && x.testBit i) := by
  rw [u8, Nat.testBit_mod_two_pow]

theorem u32_lt (x : Nat) : u32 x < 2 ^ 32 := Nat.mod_lt _ (by norm_num)

theorem testBit_not32 (x i : Nat) :
    (not32 x).testBit i = (decide (i < 32) && !x.testBit i) := by
  have h : not32 x = 2 ^ 32 - (u32 x + 1) := by
    unfold not32; omega
  rw [h, Nat.testBit_two_pow_sub_succ (u32_lt x), testBit_u32]
  by_cases hi : i < 32 <;> simp [hi]

theorem testBit_shl32 (x n i : Nat) :
    (shl32 x n).testBit i = (decide (i < 32) && (decide (n ≤ i) && x.testBit (i - n))) := by
  simp [shl32, testBit_u32, Nat.testBit_shiftLeft]

theorem testBit_byteOf (w k j : Nat) :
    (byteOf w k).testBit j = (decide (j < 8) && w.testBit (8 * k + j)) := by
  have h : (0xFF : Nat) = 2 ^ 8 - 1 := by norm_num
  rw [byteOf, Nat.testBit_and, Nat.testBit_shiftRight, h, Nat.testBit_two_pow_sub_one]
  by_cases hj : j < 8 <;> simp [hj]

theorem testBit_255 (i : Nat) : (0xFF : Nat).testBit i = decide (i < 8) := by
  have h : (0xFF : Nat) = 2 ^ 8 - 1 := by norm_num
  rw [h, Nat.testBit_two_pow_sub_one]

theorem testBit_of_lt_256 {v : Nat} (hv : v < 256) {i : Nat} (hi : 8 ≤ i) :
    v.testBit i = false := by
  apply Nat.testBit_lt_two_pow
  calc v < 2 ^ 8 := by omega
    _ ≤ 2 ^ i := Nat.pow_le_pow_right (by norm_num) hi

/-- Bits of a word after the 8-bit field at bit offset `sh` was cleared and the
value `v` was OR-ed in at that offset. -/
theorem testBit_insertField (w v sh i : Nat) (hv : v < 256) :
    ((w &&& not32 (shl32 0xFF sh)) ||| shl32 v sh).testBit i =
      (decide (i < 32) &&
        (if sh ≤ i ∧ i < sh + 8 then v.testBit (i - sh) else w.testBit i)) := by
  rw [Nat.testBit_or, Nat.testBit_and, testBit_not32, testBit_shl32, testBit_shl32,
    testBit_255]
  by_cases h32 : i < 32
  · by_cases h1 : sh ≤ i
    · by_cases h2 : i < sh + 8
      · have h3 : i - sh < 8 := by omega
        simp [h32, h1, h2, h3]
      · have h3 : ¬ i - sh < 8 := by omega
        have h4 : v.testBit (i - sh) = false := testBit_of_lt_256 hv (by omega)
        simp [h32, h1, h2, h3, h4]
    · simp [h32, h1]
  · simp [h32]

/-- The shift amount `(x & 0x3UL) << 3` held in a `uint8_t`. -/
theorem ucShf_eq (y : Nat) : u8 (shl32 (y &&& 0x3) 3) = 8 * (y % 4) := by
  have h : y &&& 0x3 = y % 4 := by
    have := Nat.and_pow_two_sub_one_eq_mod y 2
    simpa using this
  rw [h, shl32, u32, u8, Nat.shiftLeft_eq]
  omega

theorem and_3_eq_mod (y : Nat) : y &&& 3 = y % 4 := by
  have := Nat.and_pow_two_sub_one_eq_mod y 2
  simpa using this

theorem and_0xC0_lt (p : Nat) : p &&& 0xC0 < 256 :=
  Nat.lt_of_le_of_lt Nat.and_le_right (by norm_num)

theorem u8_and_0xC0 (p : Nat) : u8 p &&& 0xC0 = p &&& 0xC0 := by
  apply Nat.eq_of_testBit_eq
  intro i
  rw [Nat.testBit_and, Nat.testBit_and, testBit_u8]
  by_cases hi : i < 8
  · simp [hi]
  · have : (0xC0 : Nat).testBit i = false :=
      testBit_of_lt_256 (by norm_num) (by omega)
    simp [this]

theorem u32_of_lt {x : Nat} (h : x < 2 ^ 32) : u32 x = x := Nat.mod_eq_of_lt h

/-- The word `PFIC_SetPriority` stores, bit by bit. -/
theorem testBit_setPriority_word (w IRQn p i : Nat) :
    ((w &&& not32 (shl32 PFIC_IPRIOR_PRIO (u8 (shl32 (u32 IRQn &&& 0x3) 3)))) |||
        shl32 (u32 (u8 p &&& 0xC0)) (u8 (shl32 (u32 IRQn &&& 0x3) 3))).testBit i =
      (decide (i < 32) &&
        (if 8 * (IRQn % 4) ≤ i ∧ i < 8 * (IRQn % 4) + 8
          then (p &&& 0xC0).testBit (i - 8 * (IRQn % 4)) else w.testBit i)) := by
  have hsh : u8 (shl32 (u32 IRQn &&& 0x3) 3) = 8 * (IRQn % 4) := by
    rw [ucShf_eq, u32]; omega
  have hv : u32 (u8 p &&& 0xC0) = p &&& 0xC0 := by
    rw [u8_and_0xC0]
    exact u32_of_lt (Nat.lt_trans (and_0xC0_lt p) (by norm_num))
  rw [hsh, hv, PFIC_IPRIOR_PRIO]
  exact testBit_insertField w (p &&& 0xC0) (8 * (IRQn % 4)) i (and_0xC0_lt p)

theorem setIdx_same {n : Nat} (a : Fin n → Nat) (i : Fin n) (v : Nat) :
    setIdx a i v i = v := by
  simp [setIdx]

theorem setIdx_other {n : Nat} (a : Fin n → Nat) (i j : Fin n) (v : Nat) (h : j ≠ i) :
    setIdx a i v j = a j := by
  simp [setIdx, h]

/-- What `PFIC_SetPriority` does for an index inside `IPRIOR`: it stores one word
into `IPRIOR[IRQn >> 2]`; the word is the old one with byte `IRQn % 4` replaced by
`priority & 0xC0` (and nothing above bit 31). -/
theorem setPriority_spec (s : PFIC_Type) (IRQn p : Nat) (hi : IRQn >>> 2 < 64) :
    ∃ w : Nat,
      PFIC_SetPriority s IRQn p =
        some { s with IPRIOR := setIdx s.IPRIOR ⟨IRQn >>> 2, hi⟩ w } ∧
      ∀ i, w.testBit i =
        (decide (i < 32) &&
          (if 8 * (IRQn % 4) ≤ i ∧ i < 8 * (IRQn % 4) + 8
            then (p &&& 0xC0).testBit (i - 8 * (IRQn % 4))
            else (s.IPRIOR ⟨IRQn >>> 2, hi⟩).testBit i)) := by
  refine ⟨_, ?_, fun i => testBit_setPriority_word (s.IPRIOR ⟨IRQn >>> 2, hi⟩) IRQn p i⟩
  unfold PFIC_SetPriority
  rw [dif_pos hi]

theorem irqn_shr2_lt {IRQn : Nat} (h : IRQn ≤ 255) : IRQn >>> 2 < 64 := by
  rw [Nat.shiftRight_eq_div_pow]; omega

/-- Byte `k` of a word whose bits are described by `testBit_setPriority_word`. -/
theorem byteOf_target (w old v m : Nat) (hm : m < 4) (hv : v < 256)
    (hw : ∀ i, w.testBit i =
      (decide (i < 32) &&
        (if 8 * m ≤ i ∧ i < 8 * m + 8 then v.testBit (i - 8 * m) else old.testBit i))) :
    byteOf w m = v := by
  apply Nat.eq_of_testBit_eq
  intro j
  rw [testBit_byteOf, hw]
  by_cases hj : j < 8
  · have h1 : 8 * m + j < 32 := by omega
    have h2 : 8 * m ≤ 8 * m + j ∧ 8 * m + j < 8 * m + 8 := by omega
    simp [hj, h1, h2]
  · have := testBit_of_lt_256 hv (i := j) (by omega)
    simp [hj, this]

theorem byteOf_other (w old v m k : Nat) (hk : k < 4) (hkm : k ≠ m)
    (hw : ∀ i, w.testBit i =
      (decide (i < 32) &&
        (if 8 * m ≤ i ∧ i < 8 * m + 8 then v.testBit (i - 8 * m) else old.testBit i))) :
    byteOf w k = byteOf old k := by
  apply Nat.eq_of_testBit_eq
  intro j
  rw [testBit_byteOf, testBit_byteOf, hw]
  by_cases hj : j < 8
  · have h1 : 8 * k + j < 32 := by omega
    have h2 : ¬ (8 * m ≤ 8 * k + j ∧ 8 * k + j < 8 * m + 8) := by omega
    simp [hj, h1, h2]
  · simp [hj]

/-- C1: for every register-bank state, every IRQn in [0, 255] and every priority
`p`, `PFIC_SetPriority(IRQn, p)` succeeds and afterwards byte `IRQn & 3` of
`IPRIOR[IRQn >> 2]` equals `p & 0xC0`: its bits 7 and 6 are those of `p`, its bits
5..0 are zero, whatever the byte held before. -/
theorem C1_setPriority_readback (s : PFIC_Type) (IRQn p : Nat) (hI : IRQn ≤ 255) :
    ∃ (hi : IRQn >>> 2 < 64) (s' : PFIC_Type),
      PFIC_SetPriority s IRQn p = some s' ∧
      byteOf (s'.IPRIOR ⟨IRQn >>> 2, hi⟩) (IRQn &&& 3) = p &&& 0xC0 ∧
      (byteOf (s'.IPRIOR ⟨IRQn >>> 2, hi⟩) (IRQn &&& 3)).testBit 7 = p.testBit 7 ∧
      (byteOf (s'.IPRIOR ⟨IRQn >>> 2, hi⟩) (IRQn &&& 3)).testBit 6 = p.testBit 6 ∧
      (∀ j, j < 6 →
        (byteOf (s'.IPRIOR ⟨IRQn >>> 2, hi⟩) (IRQn &&& 3)).testBit j = false) := by
  have hi := irqn_shr2_lt hI
  obtain ⟨w, hw, hbits⟩ := setPriority_spec s IRQn p hi
  refine ⟨hi, _, hw, ?_⟩
  have hb : byteOf w (IRQn &&& 3) = p &&& 0xC0 := by
    rw [and_3_eq_mod]
    exact byteOf_target w _ _ _ (Nat.mod_lt _ (by norm_num)) (and_0xC0_lt p) hbits
  simp only [setIdx_same]
  refine ⟨hb, ?_, ?_, ?_⟩
  · rw [hb, Nat.testBit_and]; simp [show (0xC0 : Nat).testBit 7 = true by decide]
  · rw [hb, Nat.testBit_and]; simp [show (0xC0 : Nat).testBit 6 = true by decide]
  · intro j hj
    rw [hb, Nat.testBit_and]
    have : (0xC0 : Nat).testBit j = false := by
      interval_cases j <;> decide
    simp [this]

/-- Witness for C1: line 6, priority 0x7F, on the reset state. -/
theorem C1_setPriority_readback_witness :
    (6 : Nat) ≤ 255 ∧
    ∃ (hi : 6 >>> 2 < 64) (s' : PFIC_Type),
      PFIC_SetPriority resetState 6 0x7F = some s' ∧
      byteOf (s'.IPRIOR ⟨6 >>> 2, hi⟩) (6 &&& 3) = 0x7F &&& 0xC0 ∧
      (byteOf (s'.IPRIOR ⟨6 >>> 2, hi⟩) (6 &&& 3)).testBit 7 = (0x7F : Nat).testBit 7 ∧
      (byteOf (s'.IPRIOR ⟨6 >>> 2, hi⟩) (6 &&& 3)).testBit 6 = (0x7F : Nat).testBit 6 ∧
      (∀ j, j < 6 → (byteOf (s'.IPRIOR ⟨6 >>> 2, hi⟩) (6 &&& 3)).testBit j = false) :=
  ⟨by decide, C1_setPriority_readback resetState 6 0x7F (by decide)⟩

/-- C2: for every register-bank state, every IRQn in [0, 255] and every priority
`p`, `PFIC_SetPriority(IRQn, p)` leaves the bytes of the other three lines packed
in `IPRIOR[IRQn >> 2]` unchanged, leaves every other `IPRIOR` word unchanged, and
leaves every other register of the bank unchanged. -/
theorem C2_setPriority_frame (s : PFIC_Type) (IRQn p : Nat) (hI : IRQn ≤ 255) :
    ∃ (hi : IRQn >>> 2 < 64) (s' : PFIC_Type),
      PFIC_SetPriority s IRQn p = some s' ∧
      (∀ k, k < 4 → k ≠ IRQn &&& 3 →
        byteOf (s'.IPRIOR ⟨IRQn >>> 2, hi⟩) k = byteOf (s.IPRIOR ⟨IRQn >>> 2, hi⟩) k) ∧
      (∀ j : Fin 64, j.val ≠ IRQn >>> 2 → s'.IPRIOR j = s.IPRIOR j) ∧
      s'.ISR = s.ISR ∧ s'.IPR = s.IPR ∧ s'.ITHRESDR = s.ITHRESDR ∧ s'.CFGR = s.CFGR ∧
      s'.GISR = s.GISR ∧ s'.VTFIDR = s.VTFIDR ∧ s'.VTFADDRR = s.VTFADDRR ∧
      s'.IENR = s.IENR ∧ s'.IRER = s.IRER ∧ s'.IPSR = s.IPSR ∧ s'.IPRR = s.IPRR ∧
      s'.IACTR = s.IACTR ∧ s'.SCTLR = s.SCTLR := by
  have hi := irqn_shr2_lt hI
  obtain ⟨w, hw, hbits⟩ := setPriority_spec s IRQn p hi
  refine ⟨hi, _, hw, ?_, ?_, rfl, rfl, rfl, rfl, rfl, rfl, rfl, rfl, rfl, rfl, rfl, rfl, rfl⟩
  · intro k hk hkm
    rw [and_3_eq_mod] at hkm
    simp only [setIdx_same]
    exact byteOf_other w _ _ _ k hk hkm hbits
  · intro j hj
    exact setIdx_other _ _ _ _ (fun h => hj (congrArg Fin.val h))

/-- Witness for C2: line 5, priority 0xC0, on the reset state. -/
theorem C2_setPriority_frame_witness :
    (5 : Nat) ≤ 255 ∧
    ∃ (hi : 5 >>> 2 < 64) (s' : PFIC_Type),
      PFIC_SetPriority resetState 5 0xC0 = some s' ∧
      (∀ k, k < 4 → k ≠ 5 &&& 3 →
        byteOf (s'.IPRIOR ⟨5 >>> 2, hi⟩) k = byteOf (resetState.IPRIOR ⟨5 >>> 2, hi⟩) k) ∧
      (∀ j : Fin 64, j.val ≠ 5 >>> 2 → s'.IPRIOR j = resetState.IPRIOR j) ∧
      s'.ISR = resetState.ISR ∧ s'.IPR = resetState.IPR ∧
      s'.ITHRESDR = resetState.ITHRESDR ∧ s'.CFGR = resetState.CFGR ∧
      s'.GISR = resetState.GISR ∧ s'.VTFIDR = resetState.VTFIDR ∧
      s'.VTFADDRR = resetState.VTFADDRR ∧
      s'.IENR = resetState.IENR ∧ s'.IRER = resetState.IRER ∧
      s'.IPSR = resetState.IPSR ∧ s'.IPRR = resetState.IPRR ∧
      s'.IACTR = resetState.IACTR ∧ s'.SCTLR = resetState.SCTLR :=
  ⟨by decide, C2_setPriority_frame resetState 5 0xC0 (by decide)⟩

/-! ### Fast (vector-table-free) interrupt channels -/

theorem testBit_one_eq (i : Nat) : (1 : Nat).testBit i = decide (i = 0) := by
  have h := Nat.testBit_two_pow (n := 0) (m := i)
  simp only [pow_zero] at h
  rw [h]
  by_cases hi : i = 0
  · simp [hi]
  · have : ¬ 0 = i := fun h0 => hi h0.symm
    simp [hi, this]

theorem testBit_ADDR (i : Nat) :
    PFIC_VTFADDRR_ADDR.testBit i = (decide (i < 32) && !decide (i = 0)) := by
  have h : PFIC_VTFADDRR_ADDR = not32 1 := by decide
  rw [h, testBit_not32, testBit_one_eq]

theorem vtfIndex_of_le {channel : Nat} (hc : channel ≤ 3) :
    vtfIndex channel = ⟨channel, Nat.lt_succ_of_le hc⟩ := by
  apply Fin.ext
  show u8 channel &&& 0x3 = channel
  rw [and_3_eq_mod, u8]
  omega

theorem configFastIRQ_VTFADDRR (s : PFIC_Type) (channel address IRQn : Nat) :
    (PFIC_ConfigFastIRQ s channel address IRQn).VTFADDRR =
      setIdx s.VTFADDRR (vtfIndex channel) (u32 address &&& PFIC_VTFADDRR_ADDR) := rfl

/-- The word `PFIC_ConfigFastIRQ` stores into `VTFIDR`, bit by bit. -/
theorem configFastIRQ_VTFIDR_bits (s : PFIC_Type) (channel address IRQn i : Nat) :
    (PFIC_ConfigFastIRQ s channel address IRQn).VTFIDR.testBit i =
      (decide (i < 32) &&
        (if 8 * (channel % 4) ≤ i ∧ i < 8 * (channel % 4) + 8
          then (IRQn &&& 0xFF).testBit (i - 8 * (channel % 4))
          else s.VTFIDR.testBit i)) := by
  have hsh : u8 (shl32 (u8 channel &&& 0x3) 3) = 8 * (channel % 4) := by
    rw [ucShf_eq, u8]; omega
  have hlt : IRQn &&& 0xFF < 256 := Nat.lt_of_le_of_lt Nat.and_le_right (by norm_num)
  have h1 : u32 IRQn &&& 0xFF = IRQn &&& 0xFF := by
    apply Nat.eq_of_testBit_eq
    intro j
    rw [Nat.testBit_and, Nat.testBit_and, testBit_u32, testBit_255]
    by_cases hj : j < 8
    · have : j < 32 := by omega
      simp [hj, this]
    · simp [hj]
  have hv : u32 (u32 IRQn &&& PFIC_VTFIDR_VTFID) = IRQn &&& 0xFF := by
    rw [PFIC_VTFIDR_VTFID, h1]
    exact u32_of_lt (Nat.lt_trans hlt (by norm_num))
  show ((s.VTFIDR &&& not32 (shl32 PFIC_VTFIDR_VTFID (u8 (shl32 (u8 channel &&& 0x3) 3)))) |||
      shl32 (u32 (u32 IRQn &&& PFIC_VTFIDR_VTFID)) (u8 (shl32 (u8 channel &&& 0x3) 3))).testBit i
      = _
  rw [hsh, hv, PFIC_VTFIDR_VTFID]
  exact testBit_insertField s.VTFIDR (IRQn &&& 0xFF) (8 * (channel % 4)) i hlt

/-- C3: for every register-bank state (the channel may be enabled in it), every
channel in 0..3, every address and every IRQn: after
`PFIC_ConfigFastIRQ(channel, address, IRQn)` bit 0 of `VTFADDRR[channel]` is 0 (the
channel is disabled) and bits 31..1 of `VTFADDRR[channel]` are bits 31..1 of
`address`. -/
theorem C3_configFastIRQ_disabled (s : PFIC_Type) (channel address IRQn : Nat)
    (hc : channel ≤ 3) :
    ∃ hc4 : channel < 4,
      ((PFIC_ConfigFastIRQ s channel address IRQn).VTFADDRR ⟨channel, hc4⟩).testBit 0 = false ∧
      ∀ i, 1 ≤ i → i ≤ 31 →
        ((PFIC_ConfigFastIRQ s channel address IRQn).VTFADDRR ⟨channel, hc4⟩).testBit i =
          address.testBit i := by
  refine ⟨Nat.lt_succ_of_le hc, ?_, ?_⟩
  · rw [configFastIRQ_VTFADDRR, vtfIndex_of_le hc, setIdx_same, Nat.testBit_and,
      testBit_ADDR]
    simp
  · intro i h1 h31
    rw [configFastIRQ_VTFADDRR, vtfIndex_of_le hc, setIdx_same, Nat.testBit_and,
      testBit_ADDR, testBit_u32]
    have h32 : i < 32 := by omega
    have h0 : ¬ i = 0 := by omega
    simp [h32, h0]

/-- Witness for C3: channel 2, enabled beforehand, configured with an odd address. -/
theorem C3_configFastIRQ_disabled_witness :
    (2 : Nat) ≤ 3 ∧
    ∃ hc4 : 2 < 4,
      ((PFIC_ConfigFastIRQ enabledState 2 0x08001235 38).VTFADDRR ⟨2, hc4⟩).testBit 0 = false ∧
      ∀ i, 1 ≤ i → i ≤ 31 →
        ((PFIC_ConfigFastIRQ enabledState 2 0x08001235 38).VTFADDRR ⟨2, hc4⟩).testBit i =
          (0x08001235 : Nat).testBit i :=
  ⟨by decide, C3_configFastIRQ_disabled enabledState 2 0x08001235 38 (by decide)⟩

theorem enableFastIRQ_VTFADDRR (s : PFIC_Type) (channel : Nat) :
    (PFIC_EnableFastIRQ s channel).VTFADDRR =
      setIdx s.VTFADDRR (vtfIndex channel)
        (s.VTFADDRR (vtfIndex channel) ||| PFIC_VTFADDRR_VTFEN) := rfl

/-- C4: for every register-bank state and every channel in 0..3,
`PFIC_EnableFastIRQ(channel)` sets bit 0 of `VTFADDRR[channel]` and changes nothing
else: the other bits of that register, the other three `VTFADDRR` registers,
`VTFIDR` and every other register of the bank keep their values.  After
`PFIC_ConfigFastIRQ(channel, address, IRQn)` followed by
`PFIC_EnableFastIRQ(channel)`, with a 32-bit `address`, `VTFADDRR[channel]` equals
`(address & 0xFFFFFFFE) | 1`. -/
theorem C4_enableFastIRQ_frame (s : PFIC_Type) (channel address IRQn : Nat)
    (hc : channel ≤ 3) (ha : address < 2 ^ 32) :
    ∃ hc4 : channel < 4,
      ((PFIC_EnableFastIRQ s channel).VTFADDRR ⟨channel, hc4⟩).testBit 0 = true ∧
      (∀ i, 1 ≤ i →
        ((PFIC_EnableFastIRQ s channel).VTFADDRR ⟨channel, hc4⟩).testBit i =
          (s.VTFADDRR ⟨channel, hc4⟩).testBit i) ∧
      (∀ j : Fin 4, j.val ≠ channel →
        (PFIC_EnableFastIRQ s channel).VTFADDRR j = s.VTFADDRR j) ∧
      (PFIC_EnableFastIRQ s channel).VTFIDR = s.VTFIDR ∧
      (PFIC_EnableFastIRQ s channel).ISR = s.ISR ∧
      (PFIC_EnableFastIRQ s channel).IPR = s.IPR ∧
      (PFIC_EnableFastIRQ s channel).ITHRESDR = s.ITHRESDR ∧
      (PFIC_EnableFastIRQ s channel).CFGR = s.CFGR ∧
      (PFIC_EnableFastIRQ s channel).GISR = s.GISR ∧
      (PFIC_EnableFastIRQ s channel).IENR = s.IENR ∧
      (PFIC_EnableFastIRQ s channel).IRER = s.IRER ∧
      (PFIC_EnableFastIRQ s channel).IPSR = s.IPSR ∧
      (PFIC_EnableFastIRQ s channel).IPRR = s.IPRR ∧
      (PFIC_EnableFastIRQ s channel).IACTR = s.IACTR ∧
      (PFIC_EnableFastIRQ s channel).IPRIOR = s.IPRIOR ∧
      (PFIC_EnableFastIRQ s channel).SCTLR = s.SCTLR ∧
      (PFIC_EnableFastIRQ (PFIC_ConfigFastIRQ s channel address IRQn) channel).VTFADDRR
          ⟨channel, hc4⟩ = (address &&& 0xFFFFFFFE) ||| 1 := by
  refine ⟨Nat.lt_succ_of_le hc, ?_, ?_, ?_, rfl, rfl, rfl, rfl, rfl, rfl, rfl, rfl, rfl,
    rfl, rfl, rfl, rfl, ?_⟩
  · rw [enableFastIRQ_VTFADDRR, vtfIndex_of_le hc, setIdx_same, Nat.testBit_or,
      PFIC_VTFADDRR_VTFEN, testBit_one_eq]
    simp
  · intro i hi
    rw [enableFastIRQ_VTFADDRR, vtfIndex_of_le hc, setIdx_same, Nat.testBit_or,
      PFIC_VTFADDRR_VTFEN, testBit_one_eq]
    have h0 : ¬ i = 0 := by omega
    simp [h0]
  · intro j hj
    rw [enableFastIRQ_VTFADDRR, vtfIndex_of_le hc]
    exact setIdx_other _ _ _ _ (fun h => hj (congrArg Fin.val h))
  · rw [enableFastIRQ_VTFADDRR, vtfIndex_of_le hc, setIdx_same, configFastIRQ_VTFADDRR,
      vtfIndex_of_le hc, setIdx_same, u32_of_lt ha]
    rfl

/-- Witness for C4: channel 1 of the reset state, handler address `0x0800_1234`. -/
theorem C4_enableFastIRQ_frame_witness :
    (1 : Nat) ≤ 3 ∧ (0x08001234 : Nat) < 2 ^ 32 ∧
    ∃ hc4 : 1 < 4,
      ((PFIC_EnableFastIRQ resetState 1).VTFADDRR ⟨1, hc4⟩).testBit 0 = true ∧
      (PFIC_EnableFastIRQ (PFIC_ConfigFastIRQ resetState 1 0x08001234 38) 1).VTFADDRR
          ⟨1, hc4⟩ = (0x08001234 &&& 0xFFFFFFFE) ||| 1 :=
  ⟨by decide, by decide,
    (C4_enableFastIRQ_frame resetState 1 0x08001234 38 (by decide) (by decide)).imp
      (fun _ h => ⟨h.1, h.2.2.2.2.2.2.2.2.2.2.2.2.2.2.2.2⟩)⟩

/-- C5 (as stated) fails: on a bank whose channel 0 is enabled (bit 0 of
`VTFADDRR[0]` is 1), `PFIC_ConfigFastIRQ(0, 0x08001234, 38)` leaves bit 0 of
`VTFADDRR[0]` at 0, so the bit after the call differs from the bit before it. -/
theorem C5_enable_bit_not_preserved :
    (enabledState.VTFADDRR 0).testBit 0 = true ∧
    ((PFIC_ConfigFastIRQ enabledState 0 0x08001234 38).VTFADDRR 0).testBit 0 = false ∧
    ¬ (((PFIC_ConfigFastIRQ enabledState 0 0x08001234 38).VTFADDRR 0).testBit 0 =
        (enabledState.VTFADDRR 0).testBit 0) := by
  refine ⟨by decide, by decide, by decide⟩

/-- C5 (amended): for every register-bank state, channel in 0..3, address and
IRQn, `PFIC_ConfigFastIRQ(channel, address, IRQn)` stores the handler address masked
with `PFIC_VTFADDRR_ADDR` into `VTFADDRR[channel]` as a plain store: the previous
contents of the register do not enter the result, bit 0 (the enable bit) is 0 after
the call, and it equals the bit before the call exactly when the channel was
disabled before. -/
theorem C5_configFastIRQ_clears_enable (s : PFIC_Type) (channel address IRQn : Nat)
    (hc : channel ≤ 3) :
    ∃ hc4 : channel < 4,
      (PFIC_ConfigFastIRQ s channel address IRQn).VTFADDRR ⟨channel, hc4⟩ =
        u32 address &&& PFIC_VTFADDRR_ADDR ∧
      ((PFIC_ConfigFastIRQ s channel address IRQn).VTFADDRR ⟨channel, hc4⟩).testBit 0 = false ∧
      (((PFIC_ConfigFastIRQ s channel address IRQn).VTFADDRR ⟨channel, hc4⟩).testBit 0 =
          (s.VTFADDRR ⟨channel, hc4⟩).testBit 0 ↔
        (s.VTFADDRR ⟨channel, hc4⟩).testBit 0 = false) := by
  have h0 : ((PFIC_ConfigFastIRQ s channel address IRQn).VTFADDRR
      ⟨channel, Nat.lt_succ_of_le hc⟩).testBit 0 = false := by
    rw [configFastIRQ_VTFADDRR, vtfIndex_of_le hc, setIdx_same, Nat.testBit_and,
      testBit_ADDR]
    simp
  refine ⟨Nat.lt_succ_of_le hc, ?_, h0, ?_⟩
  · rw [configFastIRQ_VTFADDRR, vtfIndex_of_le hc, setIdx_same]
  · rw [h0]
    exact eq_comm

/-- Witness for C5 (amended): channel 3, enabled beforehand. -/
theorem C5_configFastIRQ_clears_enable_witness :
    (3 : Nat) ≤ 3 ∧
    ∃ hc4 : 3 < 4,
      (PFIC_ConfigFastIRQ enabledState 3 0x08001235 38).VTFADDRR ⟨3, hc4⟩ =
        u32 0x08001235 &&& PFIC_VTFADDRR_ADDR ∧
      ((PFIC_ConfigFastIRQ enabledState 3 0x08001235 38).VTFADDRR ⟨3, hc4⟩).testBit 0 = false ∧
      (((PFIC_ConfigFastIRQ enabledState 3 0x08001235 38).VTFADDRR ⟨3, hc4⟩).testBit 0 =
          (enabledState.VTFADDRR ⟨3, hc4⟩).testBit 0 ↔
        (enabledState.VTFADDRR ⟨3, hc4⟩).testBit 0 = false) :=
  ⟨by decide, C5_configFastIRQ_clears_enable enabledState 3 0x08001235 38 (by decide)⟩

/-- C6: for every register-bank state, channel in 0..3, address and IRQn in
[0, 255]: after `PFIC_ConfigFastIRQ(channel, address, IRQn)` byte `channel` of
`VTFIDR` equals `IRQn` (which is `IRQn & 0xFF`) and the other three bytes of
`VTFIDR` are unchanged. -/
theorem C6_configFastIRQ_VTFIDR (s : PFIC_Type) (channel address IRQn : Nat)
    (hc : channel ≤ 3) (hI : IRQn ≤ 255) :
    byteOf (PFIC_ConfigFastIRQ s channel address IRQn).VTFIDR channel = IRQn ∧
    IRQn &&& 0xFF = IRQn ∧
    ∀ k, k < 4 → k ≠ channel →
      byteOf (PFIC_ConfigFastIRQ s channel address IRQn).VTFIDR k = byteOf s.VTFIDR k := by
  have hm : channel % 4 = channel := Nat.mod_eq_of_lt (by omega)
  have hbits := configFastIRQ_VTFIDR_bits s channel address IRQn
  rw [hm] at hbits
  have hlt : IRQn &&& 0xFF < 256 := Nat.lt_of_le_of_lt Nat.and_le_right (by norm_num)
  have hI' : IRQn &&& 0xFF = IRQn := by
    have h := Nat.and_pow_two_sub_one_eq_mod IRQn 8
    have h' : IRQn &&& 0xFF = IRQn % 256 := by simpa using h
    rw [h']; omega
  refine ⟨?_, hI', ?_⟩
  · have := byteOf_target _ s.VTFIDR (IRQn &&& 0xFF) channel (by omega) hlt hbits
    rw [this, hI']
  · intro k hk hkc
    exact byteOf_other _ s.VTFIDR (IRQn &&& 0xFF) channel k hk hkc hbits

/-- Witness for C6: channel 2 mapped to line 38 on a bank whose channels were all
mapped to line 0x11. -/
theorem C6_configFastIRQ_VTFIDR_witness :
    (2 : Nat) ≤ 3 ∧ (38 : Nat) ≤ 255 ∧
    byteOf (PFIC_ConfigFastIRQ enabledState 2 0x08001234 38).VTFIDR 2 = 38 ∧
    38 &&& 0xFF = 38 ∧
    ∀ k, k < 4 → k ≠ 2 →
      byteOf (PFIC_ConfigFastIRQ enabledState 2 0x08001234 38).VTFIDR k =
        byteOf enabledState.VTFIDR k :=
  ⟨by decide, by decide,
    C6_configFastIRQ_VTFIDR enabledState 2 0x08001234 38 (by decide) (by decide)⟩

/-! ### Interrupt-system configuration -/

/-- C7: for every combination of the three `FunctionalState` inputs, `PFIC_Config`
writes to INTSYSCR (CSR 0x804) a value whose bit 0x04 (EABI) is set iff `eabi` is
`DISABLE`, whose bit 0x01 (hardware stack) is set iff `hpe` is `DISABLE`, whose bit
0x02 (nesting) is set iff `nest` is `DISABLE`, and which has no bit set outside
the low three bits. -/
theorem C7_config_inverts_flags (c : CSR_File) (eabi hpe nest : FunctionalState) :
    ((PFIC_Config c eabi hpe nest 0x804 &&& 0x04 ≠ 0) ↔ eabi = DISABLE) ∧
    ((PFIC_Config c eabi hpe nest 0x804 &&& 0x01 ≠ 0) ↔ hpe = DISABLE) ∧
    ((PFIC_Config c eabi hpe nest 0x804 &&& 0x02 ≠ 0) ↔ nest = DISABLE) ∧
    PFIC_Config c eabi hpe nest 0x804 &&& 0xFFFFFFF8 = 0 ∧
    PFIC_Config c eabi hpe nest 0x804 < 8 ∧
    __get_INTSYSCR (PFIC_Config c eabi hpe nest) = PFIC_Config c eabi hpe nest 0x804 := by
  have hv : PFIC_Config c eabi hpe nest 0x804 =
      u32 ((if eabi ≠ DISABLE then 0 else PFIC_INTSYSCR_EABIEN) |||
        (if hpe ≠ DISABLE then 0 else PFIC_INTSYSCR_HWSTKEN) |||
        (if nest ≠ DISABLE then 0 else PFIC_INTSYSCR_INESTEN)) := by
    simp [PFIC_Config, __set_INTSYSCR, csrw]
  rw [hv]
  refine ⟨?_, ?_, ?_, ?_, ?_, ?_⟩
  all_goals
    by_cases h1 : eabi = DISABLE <;> by_cases h2 : hpe = DISABLE <;>
      by_cases h3 : nest = DISABLE <;>
      simp [h1, h2, h3, PFIC_INTSYSCR_EABIEN, PFIC_INTSYSCR_HWSTKEN,
        PFIC_INTSYSCR_INESTEN, u32, __get_INTSYSCR, csrr, PFIC_Config,
        __set_INTSYSCR, csrw] <;> decide

/-! ### Enable, disable and pending state of a line -/

theorem irq_reg_eq {IRQn : Nat} (h : IRQn ≤ 255) : PFIC_IRQn_REG IRQn = IRQn >>> 5 := by
  rw [PFIC_IRQn_REG, u32_of_lt (by omega)]

theorem irq_num_eq {IRQn : Nat} (h : IRQn ≤ 255) : PFIC_IRQn_NUM IRQn = IRQn &&& 31 := by
  rw [PFIC_IRQn_NUM, u32_of_lt (by omega)]

theorem and_31_eq_mod (y : Nat) : y &&& 31 = y % 32 := by
  have := Nat.and_pow_two_sub_one_eq_mod y 5
  simpa using this

theorem irqn_shr5_lt {IRQn : Nat} (h : IRQn ≤ 255) : IRQn >>> 5 < 8 := by
  rw [Nat.shiftRight_eq_div_pow]; omega

theorem and_31_lt (y : Nat) : y &&& 31 < 32 := by
  rw [and_31_eq_mod]; omega

theorem shl32_one {n : Nat} (hn : n < 32) : shl32 1 n = 2 ^ n := by
  rw [shl32, Nat.one_shiftLeft]
  exact u32_of_lt (Nat.pow_lt_pow_right (by norm_num) hn)

/-- The C test `(x & (1UL << n)) ? 1UL : 0UL` reads bit `n` of `x`. -/
theorem and_two_pow_ne_zero_iff (x n : Nat) : x &&& 2 ^ n ≠ 0 ↔ x.testBit n = true := by
  constructor
  · intro h
    by_contra hb
    apply h
    apply Nat.eq_of_testBit_eq
    intro i
    rw [Nat.testBit_and, Nat.testBit_two_pow, Nat.zero_testBit]
    by_cases hi : n = i
    · subst hi
      simp [hb]
    · simp [hi]
  · intro hb h0
    have h1 : (x &&& 2 ^ n).testBit n = true := by
      rw [Nat.testBit_and, Nat.testBit_two_pow_self, hb]
      rfl
    rw [h0, Nat.zero_testBit] at h1
    exact Bool.noConfusion h1

theorem bitTest_eq (x n : Nat) (hn : n < 32) :
    (if x &&& shl32 1 n ≠ 0 then 1 else 0) = if x.testBit n = true then 1 else 0 := by
  rw [shl32_one hn]
  by_cases hb : x.testBit n = true
  · rw [if_pos ((and_two_pow_ne_zero_iff x n).2 hb), if_pos hb]
  · rw [if_neg (fun h => hb ((and_two_pow_ne_zero_iff x n).1 h)), if_neg hb]

theorem enableIRQ_spec (s : PFIC_Type) (IRQn : Nat) (hI : IRQn ≤ 255)
    (hi : IRQn >>> 5 < 8) :
    PFIC_EnableIRQ s IRQn = some (store_IENR s ⟨IRQn >>> 5, hi⟩ (2 ^ (IRQn &&& 31))) := by
  unfold PFIC_EnableIRQ
  simp only [irq_reg_eq hI, irq_num_eq hI, dif_pos hi, shl32_one (and_31_lt IRQn)]

theorem disableIRQ_spec (s : PFIC_Type) (IRQn : Nat) (hI : IRQn ≤ 255)
    (hi : IRQn >>> 5 < 8) :
    PFIC_DisableIRQ s IRQn = some (store_IRER s ⟨IRQn >>> 5, hi⟩ (2 ^ (IRQn &&& 31))) := by
  unfold PFIC_DisableIRQ
  simp only [irq_reg_eq hI, irq_num_eq hI, dif_pos hi, shl32_one (and_31_lt IRQn)]

theorem setPendingIRQ_spec (s : PFIC_Type) (IRQn : Nat) (hI : IRQn ≤ 255)
    (hi : IRQn >>> 5 < 8) :
    PFIC_SetPendingIRQ s IRQn =
      some (store_IPSR s ⟨IRQn >>> 5, hi⟩ (2 ^ (IRQn &&& 31))) := by
  unfold PFIC_SetPendingIRQ
  simp only [irq_reg_eq hI, irq_num_eq hI, dif_pos hi, shl32_one (and_31_lt IRQn)]

theorem clearPendingIRQ_spec (s : PFIC_Type) (IRQn : Nat) (hI : IRQn ≤ 255)
    (hi : IRQn >>> 5 < 8) :
    PFIC_ClearPendingIRQ s IRQn =
      some (store_IPRR s ⟨IRQn >>> 5, hi⟩ (2 ^ (IRQn &&& 31))) := by
  unfold PFIC_ClearPendingIRQ
  simp only [irq_reg_eq hI, irq_num_eq hI, dif_pos hi, shl32_one (and_31_lt IRQn)]

theorem getStatusIRQ_spec (s : PFIC_Type) (IRQn : Nat) (hI : IRQn ≤ 255)
    (hi : IRQn >>> 5 < 8) :
    PFIC_GetStatusIRQ s IRQn =
      some (if (s.ISR ⟨IRQn >>> 5, hi⟩).testBit (IRQn &&& 31) = true then 1 else 0) := by
  unfold PFIC_GetStatusIRQ
  simp only [irq_reg_eq hI, irq_num_eq hI, dif_pos hi, bitTest_eq _ _ (and_31_lt IRQn)]

theorem getPendingIRQ_spec (s : PFIC_Type) (IRQn : Nat) (hI : IRQn ≤ 255)
    (hi : IRQn >>> 5 < 8) :
    PFIC_GetPendingIRQ s IRQn =
      some (if (s.IPR ⟨IRQn >>> 5, hi⟩).testBit (IRQn &&& 31) = true then 1 else 0) := by
  unfold PFIC_GetPendingIRQ
  simp only [irq_reg_eq hI, irq_num_eq hI, dif_pos hi, bitTest_eq _ _ (and_31_lt IRQn)]

theorem setIdx_setIdx {n : Nat} (a : Fin n → Nat) (i : Fin n) (v v' : Nat) :
    setIdx (setIdx a i v) i v' = setIdx a i v' := by
  funext j
  by_cases h : j = i <;> simp [setIdx, h]

theorem or_or_self (a w : Nat) : (a ||| w) ||| w = a ||| w := by
  rw [Nat.or_assoc, Nat.or_self]

theorem and_and_self (a w : Nat) : (a &&& w) &&& w = a &&& w := by
  rw [Nat.and_assoc, Nat.and_self]

theorem store_IENR_idem (s : PFIC_Type) (i : Fin 8) (w : Nat) :
    store_IENR (store_IENR s i w) i w = store_IENR s i w := by
  simp [store_IENR, setIdx_same, setIdx_setIdx, or_or_self]

theorem store_IRER_idem (s : PFIC_Type) (i : Fin 8) (w : Nat) :
    store_IRER (store_IRER s i w) i w = store_IRER s i w := by
  simp [store_IRER, setIdx_same, setIdx_setIdx, and_and_self]

theorem testBit_set (a n k : Nat) :
    (a ||| 2 ^ n).testBit k = (a.testBit k || decide (n = k)) := by
  rw [Nat.testBit_or, Nat.testBit_two_pow]

theorem testBit_clear (a n k : Nat) :
    (a &&& not32 (2 ^ n)).testBit k =
      (a.testBit k && (decide (k < 32) && !decide (n = k))) := by
  rw [Nat.testBit_and, testBit_not32, Nat.testBit_two_pow]

/-- C8: under the write-1-to-set / write-1-to-clear device model, for every state
and every IRQn in [0, 255]: `PFIC_EnableIRQ(IRQn)` succeeds, `PFIC_GetStatusIRQ(IRQn)`
then returns 1, and enabling once more yields the same state;
`PFIC_DisableIRQ(IRQn)` succeeds, `PFIC_GetStatusIRQ(IRQn)` then returns 0, and
disabling once more yields the same state. -/
theorem C8_enable_disable_status (s : PFIC_Type) (IRQn : Nat) (hI : IRQn ≤ 255) :
    (∃ s₁ : PFIC_Type, PFIC_EnableIRQ s IRQn = some s₁ ∧
      PFIC_GetStatusIRQ s₁ IRQn = some 1 ∧ PFIC_EnableIRQ s₁ IRQn = some s₁) ∧
    (∃ s₂ : PFIC_Type, PFIC_DisableIRQ s IRQn = some s₂ ∧
      PFIC_GetStatusIRQ s₂ IRQn = some 0 ∧ PFIC_DisableIRQ s₂ IRQn = some s₂) := by
  have hi := irqn_shr5_lt hI
  constructor
  · refine ⟨_, enableIRQ_spec s IRQn hI hi, ?_, ?_⟩
    · rw [getStatusIRQ_spec _ IRQn hI hi]
      have : ((store_IENR s ⟨IRQn >>> 5, hi⟩ (2 ^ (IRQn &&& 31))).ISR
          ⟨IRQn >>> 5, hi⟩).testBit (IRQn &&& 31) = true := by
        simp [store_IENR, setIdx_same, testBit_set]
      rw [if_pos this]
    · rw [enableIRQ_spec _ IRQn hI hi, store_IENR_idem]
  · refine ⟨_, disableIRQ_spec s IRQn hI hi, ?_, ?_⟩
    · rw [getStatusIRQ_spec _ IRQn hI hi]
      have : ¬ ((store_IRER s ⟨IRQn >>> 5, hi⟩ (2 ^ (IRQn &&& 31))).ISR
          ⟨IRQn >>> 5, hi⟩).testBit (IRQn &&& 31) = true := by
        simp only [store_IRER, setIdx_same]
        rw [testBit_clear]
        simp
      rw [if_neg this]
    · rw [disableIRQ_spec _ IRQn hI hi, store_IRER_idem]

/-- Witness for C8: line 37 on the reset state. -/
theorem C8_enable_disable_status_witness :
    (37 : Nat) ≤ 255 ∧
    (∃ s₁ : PFIC_Type, PFIC_EnableIRQ resetState 37 = some s₁ ∧
      PFIC_GetStatusIRQ s₁ 37 = some 1 ∧ PFIC_EnableIRQ s₁ 37 = some s₁) ∧
    (∃ s₂ : PFIC_Type, PFIC_DisableIRQ resetState 37 = some s₂ ∧
      PFIC_GetStatusIRQ s₂ 37 = some 0 ∧ PFIC_DisableIRQ s₂ 37 = some s₂) :=
  ⟨by decide, C8_enable_disable_status resetState 37 (by decide)⟩

/-- Two distinct lines in [0, 255] differ in their register index or in their bit
number. -/
theorem reg_or_num_ne {j IRQn : Nat} (h : j ≠ IRQn) :
    j >>> 5 ≠ IRQn >>> 5 ∨ j &&& 31 ≠ IRQn &&& 31 := by
  rw [Nat.shiftRight_eq_div_pow, Nat.shiftRight_eq_div_pow, and_31_eq_mod, and_31_eq_mod]
  omega

theorem testBit_setIdx_set (a : Fin 8 → Nat) (i j : Fin 8) (n k : Nat)
    (h : j ≠ i ∨ k ≠ n) :
    (setIdx a i (a i ||| 2 ^ n) j).testBit k = (a j).testBit k := by
  by_cases hji : j = i
  · subst hji
    have hk : ¬ n = k := fun e => h.elim (fun h' => h' rfl) (fun h' => h' e.symm)
    simp [setIdx_same, testBit_set, hk]
  · rw [setIdx_other _ _ _ _ hji]

theorem testBit_setIdx_clear (a : Fin 8 → Nat) (i j : Fin 8) (n k : Nat)
    (h : j ≠ i ∨ k ≠ n) (hk32 : k < 32) :
    (setIdx a i (a i &&& not32 (2 ^ n)) j).testBit k = (a j).testBit k := by
  by_cases hji : j = i
  · subst hji
    have hk : ¬ n = k := fun e => h.elim (fun h' => h' rfl) (fun h' => h' e.symm)
    rw [setIdx_same, testBit_clear]
    simp [hk, hk32]
  · rw [setIdx_other _ _ _ _ hji]

/-- C9: for every IRQn in [0, 255], the word `PFIC_EnableIRQ(IRQn)` stores into
`IENR[IRQn >> 5]` and the word `PFIC_DisableIRQ(IRQn)` stores into `IRER[IRQn >> 5]`
have exactly one bit set, bit `IRQn & 31`; and, under the write-1-to-set/clear
device model, neither call changes what `PFIC_GetStatusIRQ(j)` returns for any
other line `j` in [0, 255]. -/
theorem C9_single_bit_write (s : PFIC_Type) (IRQn : Nat) (hI : IRQn ≤ 255) :
    ∃ (hi : IRQn >>> 5 < 8) (s₁ s₂ : PFIC_Type),
      PFIC_EnableIRQ s IRQn = some s₁ ∧ PFIC_DisableIRQ s IRQn = some s₂ ∧
      (∀ k, (s₁.IENR ⟨IRQn >>> 5, hi⟩).testBit k = decide (k = IRQn &&& 31)) ∧
      (∀ k, (s₂.IRER ⟨IRQn >>> 5, hi⟩).testBit k = decide (k = IRQn &&& 31)) ∧
      (∀ j, j ≤ 255 → j ≠ IRQn →
        ∃ b : Nat, PFIC_GetStatusIRQ s j = some b ∧
          PFIC_GetStatusIRQ s₁ j = some b ∧ PFIC_GetStatusIRQ s₂ j = some b) := by
  have hi := irqn_shr5_lt hI
  refine ⟨hi, _, _, enableIRQ_spec s IRQn hI hi, disableIRQ_spec s IRQn hI hi, ?_, ?_, ?_⟩
  · intro k
    simp only [store_IENR, setIdx_same, Nat.testBit_two_pow]
    by_cases hk : k = IRQn &&& 31
    · simp [hk]
    · have : ¬ IRQn &&& 31 = k := fun e => hk e.symm
      simp [hk, this]
  · intro k
    simp only [store_IRER, setIdx_same, Nat.testBit_two_pow]
    by_cases hk : k = IRQn &&& 31
    · simp [hk]
    · have : ¬ IRQn &&& 31 = k := fun e => hk e.symm
      simp [hk, this]
  · intro j hj hne
    have hji := irqn_shr5_lt hj
    have hd : (⟨j >>> 5, hji⟩ : Fin 8) ≠ ⟨IRQn >>> 5, hi⟩ ∨ j &&& 31 ≠ IRQn &&& 31 :=
      (reg_or_num_ne hne).imp (fun h e => h (congrArg Fin.val e)) id
    refine ⟨_, getStatusIRQ_spec s j hj hji, ?_, ?_⟩
    · rw [getStatusIRQ_spec _ j hj hji]
      simp only [store_IENR, testBit_setIdx_set _ _ _ _ _ hd]
    · rw [getStatusIRQ_spec _ j hj hji]
      simp only [store_IRER, testBit_setIdx_clear _ _ _ _ _ hd (and_31_lt j)]

/-- Witness for C9: line 37 on the reset state. -/
theorem C9_single_bit_write_witness :
    (37 : Nat) ≤ 255 ∧
    ∃ (hi : 37 >>> 5 < 8) (s₁ s₂ : PFIC_Type),
      PFIC_EnableIRQ resetState 37 = some s₁ ∧ PFIC_DisableIRQ resetState 37 = some s₂ ∧
      (∀ k, (s₁.IENR ⟨37 >>> 5, hi⟩).testBit k = decide (k = 37 &&& 31)) ∧
      (∀ k, (s₂.IRER ⟨37 >>> 5, hi⟩).testBit k = decide (k = 37 &&& 31)) ∧
      (∀ j, j ≤ 255 → j ≠ 37 →
        ∃ b : Nat, PFIC_GetStatusIRQ resetState j = some b ∧
          PFIC_GetStatusIRQ s₁ j = some b ∧ PFIC_GetStatusIRQ s₂ j = some b) :=
  ⟨by decide, C9_single_bit_write resetState 37 (by decide)⟩

/-- C10: under the write-1-to-set / write-1-to-clear device model for IPSR / IPRR
acting on the pending status IPR, for every state (whatever the line's enable bit in
ISR) and every IRQn in [0, 255]: `PFIC_SetPendingIRQ(IRQn)` succeeds and
`PFIC_GetPendingIRQ(IRQn)` then returns 1; `PFIC_ClearPendingIRQ(IRQn)` succeeds and
`PFIC_GetPendingIRQ(IRQn)` then returns 0; neither call changes ISR, so
`PFIC_GetStatusIRQ(IRQn)` returns the same value before and after. -/
theorem C10_pending_set_clear (s : PFIC_Type) (IRQn : Nat) (hI : IRQn ≤ 255) :
    ∃ s₁ s₂ : PFIC_Type,
      PFIC_SetPendingIRQ s IRQn = some s₁ ∧ PFIC_ClearPendingIRQ s IRQn = some s₂ ∧
      PFIC_GetPendingIRQ s₁ IRQn = some 1 ∧ PFIC_GetPendingIRQ s₂ IRQn = some 0 ∧
      s₁.ISR = s.ISR ∧ s₂.ISR = s.ISR ∧
      ∃ e : Nat, PFIC_GetStatusIRQ s IRQn = some e ∧
        PFIC_GetStatusIRQ s₁ IRQn = some e ∧ PFIC_GetStatusIRQ s₂ IRQn = some e := by
  have hi := irqn_shr5_lt hI
  refine ⟨_, _, setPendingIRQ_spec s IRQn hI hi, clearPendingIRQ_spec s IRQn hI hi,
    ?_, ?_, rfl, rfl, _, getStatusIRQ_spec s IRQn hI hi, ?_, ?_⟩
  · rw [getPendingIRQ_spec _ IRQn hI hi]
    have : ((store_IPSR s ⟨IRQn >>> 5, hi⟩ (2 ^ (IRQn &&& 31))).IPR
        ⟨IRQn >>> 5, hi⟩).testBit (IRQn &&& 31) = true := by
      simp [store_IPSR, setIdx_same, testBit_set]
    rw [if_pos this]
  · rw [getPendingIRQ_spec _ IRQn hI hi]
    have : ¬ ((store_IPRR s ⟨IRQn >>> 5, hi⟩ (2 ^ (IRQn &&& 31))).IPR
        ⟨IRQn >>> 5, hi⟩).testBit (IRQn &&& 31) = true := by
      simp only [store_IPRR, setIdx_same]
      rw [testBit_clear]
      simp
    rw [if_neg this]
  · rw [getStatusIRQ_spec _ IRQn hI hi]; rfl
  · rw [getStatusIRQ_spec _ IRQn hI hi]; rfl

/-- Witness for C10: line 5 on a bank in which that line is enabled. -/
theorem C10_pending_set_clear_witness :
    (5 : Nat) ≤ 255 ∧
    ∃ s₁ s₂ : PFIC_Type,
      PFIC_SetPendingIRQ enabledState 5 = some s₁ ∧
      PFIC_ClearPendingIRQ enabledState 5 = some s₂ ∧
      PFIC_GetPendingIRQ s₁ 5 = some 1 ∧ PFIC_GetPendingIRQ s₂ 5 = some 0 ∧
      s₁.ISR = enabledState.ISR ∧ s₂.ISR = enabledState.ISR ∧
      ∃ e : Nat, PFIC_GetStatusIRQ enabledState 5 = some e ∧
        PFIC_GetStatusIRQ s₁ 5 = some e ∧ PFIC_GetStatusIRQ s₂ 5 = some e :=
  ⟨by decide, C10_pending_set_clear enabledState 5 (by decide)⟩

/-! ### System reset and wait instructions -/

/-- C11: in the key-sequence build variant (`USE_PFIC_SCTLR_SYSRESET` not defined),
`PFIC_SystemReset` stores exactly `0xBEEF0080` (key `0xBEEF` in the upper 16 bits
and the reset-request bit `0x80`) into CFGR, whatever CFGR held before, and stores
to no other register. -/
theorem C11_systemReset_key (s : PFIC_Type) :
    (PFIC_SystemReset false s).CFGR = 0xBEEF0080 ∧
    (PFIC_SystemReset false s).CFGR >>> 16 = 0xBEEF ∧
    (PFIC_SystemReset false s).CFGR &&& 0xFFFF = 0x80 ∧
    (PFIC_SystemReset false s).ISR = s.ISR ∧
    (PFIC_SystemReset false s).IPR = s.IPR ∧
    (PFIC_SystemReset false s).ITHRESDR = s.ITHRESDR ∧
    (PFIC_SystemReset false s).GISR = s.GISR ∧
    (PFIC_SystemReset false s).VTFIDR = s.VTFIDR ∧
    (PFIC_SystemReset false s).VTFADDRR = s.VTFADDRR ∧
    (PFIC_SystemReset false s).IENR = s.IENR ∧
    (PFIC_SystemReset false s).IRER = s.IRER ∧
    (PFIC_SystemReset false s).IPSR = s.IPSR ∧
    (PFIC_SystemReset false s).IPRR = s.IPRR ∧
    (PFIC_SystemReset false s).IACTR = s.IACTR ∧
    (PFIC_SystemReset false s).IPRIOR = s.IPRIOR ∧
    (PFIC_SystemReset false s).SCTLR = s.SCTLR := by
  have h : PFIC_SystemReset false s =
      { s with CFGR := PFIC_CFGR_KEYCODE_KEY3 ||| PFIC_CFGR_RESETSYS } := by
    simp [PFIC_SystemReset]
  have hk : PFIC_CFGR_KEYCODE_KEY3 ||| PFIC_CFGR_RESETSYS = 0xBEEF0080 := by decide
  rw [h]
  refine ⟨hk, ?_, ?_, rfl, rfl, rfl, rfl, rfl, rfl, rfl, rfl, rfl, rfl, rfl, rfl, rfl⟩
  · show (PFIC_CFGR_KEYCODE_KEY3 ||| PFIC_CFGR_RESETSYS) >>> 16 = 0xBEEF
    rw [hk]; decide
  · show (PFIC_CFGR_KEYCODE_KEY3 ||| PFIC_CFGR_RESETSYS) &&& 0xFFFF = 0x80
    rw [hk]; decide

/-- C13: for every prior value of SCTLR, with the register bank that `__WFI` hands to
the `wfi` instruction the wait-mode bit (SCTLR bit `0x08`, bit number 3) is 0, with
the one `__WFE` hands to it the bit is 1, and in both cases every other bit of the
32-bit register is as before. -/
theorem C13_wait_mode_bit (s : PFIC_Type) :
    (__WFI s).SCTLR.testBit 3 = false ∧
    (__WFE s).SCTLR.testBit 3 = true ∧
    (__WFI s).SCTLR &&& PFIC_SCTLR_WFITOWFE = 0 ∧
    (__WFE s).SCTLR &&& PFIC_SCTLR_WFITOWFE = PFIC_SCTLR_WFITOWFE ∧
    (∀ i, i < 32 → i ≠ 3 → (__WFI s).SCTLR.testBit i = s.SCTLR.testBit i) ∧
    (∀ i, i ≠ 3 → (__WFE s).SCTLR.testBit i = s.SCTLR.testBit i) := by
  have h8 : PFIC_SCTLR_WFITOWFE = 2 ^ 3 := by decide
  have hI : (__WFI s).SCTLR = s.SCTLR &&& not32 (2 ^ 3) := by
    rw [← h8]; rfl
  have hE : (__WFE s).SCTLR = s.SCTLR ||| 2 ^ 3 := by
    rw [← h8]; rfl
  rw [hI, hE, h8]
  refine ⟨?_, ?_, ?_, ?_, ?_, ?_⟩
  · rw [testBit_clear]; simp
  · rw [testBit_set]; simp
  · apply Nat.eq_of_testBit_eq
    intro i
    rw [Nat.testBit_and, testBit_clear, Nat.testBit_two_pow, Nat.zero_testBit]
    by_cases hi : 3 = i <;> simp [hi]
  · apply Nat.eq_of_testBit_eq
    intro i
    rw [Nat.testBit_and, testBit_set, Nat.testBit_two_pow]
    by_cases hi : 3 = i <;> simp [hi]
  · intro i h32 hi
    have : ¬ 3 = i := fun e => hi e.symm
    rw [testBit_clear]
    simp [h32, this]
  · intro i hi
    have : ¬ 3 = i := fun e => hi e.symm
    rw [testBit_set]
    simp [this]

/-! ### The enable / priority scenario -/

/-- C14 (as stated) fails: after `PFIC_EnableIRQ(5)`, `PFIC_EnableIRQ(37)`,
`PFIC_SetPriority(5, 0xC0)` and `PFIC_SetPriority(6, 0x40)` on the reset state, byte 1
of `IPRIOR[6 >> 2]` (which is `IPRIOR[1]`) is `0xC0`, the priority of line 5, and
not `0x40`. -/
theorem C14_byte1_is_not_0x40 :
    ∃ s' : PFIC_Type,
      runOps resetState
        [.EnableIRQ 5, .EnableIRQ 37, .SetPriority 5 0xC0, .SetPriority 6 0x40] = some s' ∧
      (6 : Nat) >>> 2 = 1 ∧
      byteOf (s'.IPRIOR 1) 1 = 0xC0 ∧
      ¬ byteOf (s'.IPRIOR 1) 1 = 0x40 :=
  ⟨_, rfl, by decide, by decide, by decide⟩

/-- C14 (amended): from every register-bank state, after `PFIC_EnableIRQ(5)`,
`PFIC_EnableIRQ(37)`, `PFIC_SetPriority(5, 0xC0)` and `PFIC_SetPriority(6, 0x40)`:
lines 5 and 37 were addressed through register indices 0 and 1; lines 5 and 6 share
`IPRIOR[1]`, whose byte 1 equals `0xC0` and whose byte 2 (the byte of line 6) equals
`0x40`; the word stored into `IENR[1]` for line 37 is `0x20`, bit 5 and no other
bit. -/
theorem C14_scenario (s : PFIC_Type) :
    ∃ s' : PFIC_Type,
      runOps s
        [.EnableIRQ 5, .EnableIRQ 37, .SetPriority 5 0xC0, .SetPriority 6 0x40] = some s' ∧
      PFIC_IRQn_REG 5 = 0 ∧ PFIC_IRQn_REG 37 = 1 ∧
      (5 : Nat) >>> 2 = 1 ∧ (6 : Nat) >>> 2 = 1 ∧
      byteOf (s'.IPRIOR 1) 1 = 0xC0 ∧
      byteOf (s'.IPRIOR 1) 2 = 0x40 ∧
      s'.IENR 1 = 0x20 ∧
      (∀ k, (s'.IENR 1).testBit k = decide (k = 5)) := by
  obtain ⟨s1, e1⟩ : ∃ s1, PFIC_EnableIRQ s 5 = some s1 :=
    ⟨_, enableIRQ_spec s 5 (by decide) (by decide)⟩
  obtain ⟨s2, e2, hI2⟩ : ∃ s2, PFIC_EnableIRQ s1 37 = some s2 ∧
      s2.IENR 1 = 2 ^ 5 :=
    ⟨_, enableIRQ_spec s1 37 (by decide) (by decide), rfl⟩
  obtain ⟨w1, h1, b1⟩ := setPriority_spec s2 5 0xC0 (by decide)
  obtain ⟨s3, e3, hI3, hP3⟩ : ∃ s3, PFIC_SetPriority s2 5 0xC0 = some s3 ∧
      s3.IENR = s2.IENR ∧ s3.IPRIOR 1 = w1 := ⟨_, h1, rfl, rfl⟩
  obtain ⟨w2, h2, b2⟩ := setPriority_spec s3 6 0x40 (by decide)
  obtain ⟨s4, e4, hI4, hP4⟩ : ∃ s4, PFIC_SetPriority s3 6 0x40 = some s4 ∧
      s4.IENR = s3.IENR ∧ s4.IPRIOR 1 = w2 := ⟨_, h2, rfl, rfl⟩
  have hIENR : s4.IENR 1 = 2 ^ 5 := by rw [hI4, hI3, hI2]
  refine ⟨s4, ?_, by decide, by decide, by decide, by decide, ?_, ?_, ?_, ?_⟩
  · simp only [runOps, PFIC_Op.run, e1, e2, e3, e4, Option.some_bind]
  · have t1 : byteOf w1 (5 % 4) = 0xC0 &&& 0xC0 :=
      byteOf_target w1 _ _ (5 % 4) (by decide) (by decide) b1
    have t2 : byteOf w2 1 = byteOf (s3.IPRIOR 1) 1 :=
      byteOf_other w2 _ _ (6 % 4) 1 (by decide) (by decide) b2
    rw [hP4, t2, hP3]
    exact t1
  · have t2 : byteOf w2 (6 % 4) = 0x40 &&& 0xC0 :=
      byteOf_target w2 _ _ (6 % 4) (by decide) (by decide) b2
    rw [hP4]
    exact t2
  · rw [hIENR]; decide
  · intro k
    rw [hIENR, Nat.testBit_two_pow]
    by_cases hk : k = 5
    · simp [hk]
    · have : ¬ 5 = k := fun e => hk e.symm
      simp [hk, this]

/-! ### The priority invariant -/

theorem prioInv_of_IPRIOR_eq {s s' : PFIC_Type} (h : s'.IPRIOR = s.IPRIOR)
    (hs : PrioInv s) : PrioInv s' := by
  intro j k hk
  rw [h]
  exact hs j k hk

theorem enableIRQ_IPRIOR {s s' : PFIC_Type} {IRQn : Nat}
    (h : PFIC_EnableIRQ s IRQn = some s') : s'.IPRIOR = s.IPRIOR := by
  unfold PFIC_EnableIRQ at h
  split at h
  · cases h; rfl
  · cases h

theorem disableIRQ_IPRIOR {s s' : PFIC_Type} {IRQn : Nat}
    (h : PFIC_DisableIRQ s IRQn = some s') : s'.IPRIOR = s.IPRIOR := by
  unfold PFIC_DisableIRQ at h
  split at h
  · cases h; rfl
  · cases h

theorem setPendingIRQ_IPRIOR {s s' : PFIC_Type} {IRQn : Nat}
    (h : PFIC_SetPendingIRQ s IRQn = some s') : s'.IPRIOR = s.IPRIOR := by
  unfold PFIC_SetPendingIRQ at h
  split at h
  · cases h; rfl
  · cases h

theorem clearPendingIRQ_IPRIOR {s s' : PFIC_Type} {IRQn : Nat}
    (h : PFIC_ClearPendingIRQ s IRQn = some s') : s'.IPRIOR = s.IPRIOR := by
  unfold PFIC_ClearPendingIRQ at h
  split at h
  · cases h; rfl
  · cases h

theorem and_0xC0_and_0x3F (p : Nat) : (p &&& 0xC0) &&& 0x3F = 0 := by
  rw [Nat.and_assoc]
  have h : (0xC0 : Nat) &&& 0x3F = 0 := by decide
  rw [h, Nat.and_zero]

theorem setPriority_index {s s' : PFIC_Type} {IRQn p : Nat}
    (h : PFIC_SetPriority s IRQn p = some s') : IRQn >>> 2 < 64 := by
  by_contra hc
  unfold PFIC_SetPriority at h
  rw [dif_neg hc] at h
  cases h

/-- `PFIC_SetPriority` keeps the priority invariant whenever it succeeds. -/
theorem setPriority_prioInv {s s' : PFIC_Type} {IRQn p : Nat}
    (h : PFIC_SetPriority s IRQn p = some s') (hs : PrioInv s) : PrioInv s' := by
  have hi := setPriority_index h
  obtain ⟨w, hw, hbits⟩ := setPriority_spec s IRQn p hi
  rw [hw] at h
  cases h
  intro j k hk
  by_cases hj : j = ⟨IRQn >>> 2, hi⟩
  · subst hj
    simp only [setIdx_same]
    by_cases hkm : k = IRQn % 4
    · subst hkm
      rw [byteOf_target w _ _ _ hk (and_0xC0_lt p) hbits]
      exact and_0xC0_and_0x3F p
    · rw [byteOf_other w _ _ _ k hk hkm hbits]
      exact hs _ k hk
  · simp only [setIdx_other _ _ _ _ hj]
    exact hs j k hk

theorem systemReset_IPRIOR (v : Bool) (s : PFIC_Type) :
    (PFIC_SystemReset v s).IPRIOR = s.IPRIOR := by
  unfold PFIC_SystemReset
  split <;> rfl

theorem run_prioInv {s s' : PFIC_Type} {op : PFIC_Op} (hs : PrioInv s)
    (h : op.run s = some s') : PrioInv s' := by
  cases op with
  | EnableIRQ IRQn => exact prioInv_of_IPRIOR_eq (enableIRQ_IPRIOR h) hs
  | DisableIRQ IRQn => exact prioInv_of_IPRIOR_eq (disableIRQ_IPRIOR h) hs
  | SetPendingIRQ IRQn => exact prioInv_of_IPRIOR_eq (setPendingIRQ_IPRIOR h) hs
  | ClearPendingIRQ IRQn => exact prioInv_of_IPRIOR_eq (clearPendingIRQ_IPRIOR h) hs
  | SetPriority IRQn priority => exact setPriority_prioInv h hs
  | ConfigFastIRQ channel address IRQn =>
    have e : s' = PFIC_ConfigFastIRQ s channel address IRQn := (Option.some.inj h).symm
    rw [e]
    exact prioInv_of_IPRIOR_eq rfl hs
  | EnableFastIRQ channel =>
    have e : s' = PFIC_EnableFastIRQ s channel := (Option.some.inj h).symm
    rw [e]
    exact prioInv_of_IPRIOR_eq rfl hs
  | DisableFastIRQ channel =>
    have e : s' = PFIC_DisableFastIRQ s channel := (Option.some.inj h).symm
    rw [e]
    exact prioInv_of_IPRIOR_eq rfl hs
  | SystemReset v =>
    have e : s' = PFIC_SystemReset v s := (Option.some.inj h).symm
    rw [e]
    exact prioInv_of_IPRIOR_eq (systemReset_IPRIOR v s) hs
  | SEV =>
    have e : s' = __SEV s := (Option.some.inj h).symm
    rw [e]
    exact prioInv_of_IPRIOR_eq rfl hs
  | WFI =>
    have e : s' = __WFI s := (Option.some.inj h).symm
    rw [e]
    exact prioInv_of_IPRIOR_eq rfl hs
  | WFE =>
    have e : s' = __WFE s := (Option.some.inj h).symm
    rw [e]
    exact prioInv_of_IPRIOR_eq rfl hs

theorem runOps_prioInv (ops : List PFIC_Op) :
    ∀ {s s' : PFIC_Type}, PrioInv s → runOps s ops = some s' → PrioInv s' := by
  induction ops with
  | nil =>
    intro s s' hs h
    cases h
    exact hs
  | cons op ops ih =>
    intro s s' hs h
    simp only [runOps] at h
    cases hop : op.run s with
    | none => rw [hop] at h; cases h
    | some s1 =>
      rw [hop, Option.some_bind] at h
      exact ih (run_prioInv hs hop) h

theorem prioInv_resetState : PrioInv resetState := by
  intro j k _
  simp [resetState, byteOf]

/-- C15: the predicate "every byte of every IPRIOR word has its low 6 bits equal to
zero" holds in the all-zero reset state and is preserved by every driver operation
on the register bank; `PFIC_SetPriority` succeeds and preserves it for every IRQn
in [0, 255] and every priority value; hence every state reached from the reset
state by driver operations satisfies it. -/
theorem C15_priority_invariant :
    PrioInv resetState ∧
    (∀ (s s' : PFIC_Type) (op : PFIC_Op),
      PrioInv s → op.run s = some s' → PrioInv s') ∧
    (∀ (s : PFIC_Type) (IRQn p : Nat), IRQn ≤ 255 → PrioInv s →
      ∃ s', PFIC_SetPriority s IRQn p = some s' ∧ PrioInv s') ∧
    (∀ (ops : List PFIC_Op) (s' : PFIC_Type),
      runOps resetState ops = some s' → PrioInv s') := by
  refine ⟨prioInv_resetState, fun _ _ _ hs h => run_prioInv hs h, ?_,
    fun ops _ h => runOps_prioInv ops prioInv_resetState h⟩
  intro s IRQn p hI hs
  obtain ⟨w, hw, _⟩ := setPriority_spec s IRQn p (irqn_shr2_lt hI)
  exact ⟨_, hw, setPriority_prioInv hw hs⟩

/-- Witness for C15: the state reached from the reset state by setting the priority
of line 5 to `0xFF`, enabling the line and setting the priority of line 255 to
`0x7F` satisfies the invariant. -/
theorem C15_priority_invariant_witness :
    ∃ s' : PFIC_Type,
      runOps resetState [.SetPriority 5 0xFF, .EnableIRQ 5, .SetPriority 255 0x7F] = some s' ∧
      PrioInv s' := by
  have hsome : (runOps resetState
      [.SetPriority 5 0xFF, .EnableIRQ 5, .SetPriority 255 0x7F]).isSome = true := by
    decide
  obtain ⟨s', hs'⟩ := Option.isSome_iff_exists.mp hsome
  exact ⟨s', hs', C15_priority_invariant.2.2.2 _ s' hs'⟩

/-! ### Layout of the register file -/

/-- C16: the byte offsets of the per-line members of `PFIC_Type`, computed from the
declared member order and sizes (reserved gaps included), are ISR at 0x00, IPR at
0x20, ITHRESDR at 0x40, CFGR at 0x48, IENR at 0x100, IRER at 0x180, IPSR at 0x200,
IPRR at 0x280, IACTR at 0x300 and IPRIOR at 0x400. -/
theorem C16_per_line_offsets :
    offsetof .ISR = some 0x00 ∧ offsetof .IPR = some 0x20 ∧
    offsetof .ITHRESDR = some 0x40 ∧ offsetof .CFGR = some 0x48 ∧
    offsetof .IENR = some 0x100 ∧ offsetof .IRER = some 0x180 ∧
    offsetof .IPSR = some 0x200 ∧ offsetof .IPRR = some 0x280 ∧
    offsetof .IACTR = some 0x300 ∧ offsetof .IPRIOR = some 0x400 := by
  refine ⟨?_, ?_, ?_, ?_, ?_, ?_, ?_, ?_, ?_, ?_⟩ <;> decide

/-- C17 (as stated) fails: computed from the declared member order and sizes, GISR
is not at 0x50, VTFIDR is not at 0x58, VTFADDRR is not at 0x64 and SCTLR is not at
0x800. -/
theorem C17_published_offsets_differ :
    offsetof .GISR ≠ some 0x50 ∧ offsetof .VTFIDR ≠ some 0x58 ∧
    offsetof .VTFADDRR ≠ some 0x64 ∧ offsetof .SCTLR ≠ some 0x800 := by
  refine ⟨?_, ?_, ?_, ?_⟩ <;> decide

/-- C17 (amended): the byte offsets of the control members of `PFIC_Type`, computed
from the declared member order and sizes (reserved gaps included), are GISR at
0x4C, VTFIDR at 0x50, VTFADDRR at 0x60 and SCTLR at 0xD10. -/
theorem C17_control_offsets :
    offsetof .GISR = some 0x4C ∧ offsetof .VTFIDR = some 0x50 ∧
    offsetof .VTFADDRR = some 0x60 ∧ offsetof .SCTLR = some 0xD10 := by
  refine ⟨?_, ?_, ?_, ?_⟩ <;> decide

/-! ### The read-modify-write hazard of `PFIC_SetPriority` -/

/-- `PFIC_SetPriority` is its load followed by its store. -/
theorem setPriority_eq_load_store (s : PFIC_Type) (IRQn p : Nat) :
    PFIC_SetPriority s IRQn p =
      (PFIC_SetPriority_load s IRQn).bind (PFIC_SetPriority_store s IRQn p) := by
  unfold PFIC_SetPriority PFIC_SetPriority_load PFIC_SetPriority_store
  by_cases h : IRQn >>> 2 < 64
  · simp only [dif_pos h, Option.some_bind]
  · simp only [dif_neg h, Option.none_bind]

/-- C18: with `PFIC_SetPriority` taken as two separate steps (the load of
`IPRIOR[IRQn >> 2]`, later the store of the modified word), there are two distinct
lines sharing one packed register (lines 4 and 5, both in `IPRIOR[1]`) and
priorities (`0xC0` and `0x40`) such that the interleaving of the two calls with both
loads before either store loses an update: on the reset state the final `IPRIOR[1]`
is `0x4000`, the byte of line 4 is 0 instead of `0xC0`, while either sequential order
of the two calls gives `0x40C0`. -/
theorem C18_lost_update :
    (∀ (s : PFIC_Type) (IRQn p : Nat), PFIC_SetPriority s IRQn p =
      (PFIC_SetPriority_load s IRQn).bind (PFIC_SetPriority_store s IRQn p)) ∧
    ∃ (s : PFIC_Type) (a b p q : Nat),
      a ≤ 255 ∧ b ≤ 255 ∧ a ≠ b ∧ a >>> 2 = b >>> 2 ∧ a >>> 2 = 1 ∧
      ∃ (si sab sba : PFIC_Type),
        PFIC_SetPriority_interleaved s a p b q = some si ∧
        (PFIC_SetPriority s a p).bind (fun t => PFIC_SetPriority t b q) = some sab ∧
        (PFIC_SetPriority s b q).bind (fun t => PFIC_SetPriority t a p) = some sba ∧
        si.IPRIOR 1 ≠ sab.IPRIOR 1 ∧
        si.IPRIOR 1 ≠ sba.IPRIOR 1 ∧
        byteOf (sab.IPRIOR 1) (a &&& 3) = p &&& 0xC0 ∧
        byteOf (sba.IPRIOR 1) (a &&& 3) = p &&& 0xC0 ∧
        byteOf (si.IPRIOR 1) (a &&& 3) ≠ p &&& 0xC0 ∧
        si.IPRIOR 1 = 0x4000 ∧ sab.IPRIOR 1 = 0x40C0 ∧ sba.IPRIOR 1 = 0x40C0 := by
  refine ⟨setPriority_eq_load_store, resetState, 4, 5, 0xC0, 0x40, by decide, by decide,
    by decide, by decide, by decide, _, _, _, rfl, rfl, rfl, ?_⟩
  refine ⟨?_, ?_, ?_, ?_, ?_, ?_, ?_, ?_⟩ <;> decide

/-! ### Status queries -/

theorem getActive_spec (s : PFIC_Type) (IRQn : Nat) (hI : IRQn ≤ 255)
    (hi : IRQn >>> 5 < 8) :
    PFIC_GetActive s IRQn =
      some (if (s.IACTR ⟨IRQn >>> 5, hi⟩).testBit (IRQn &&& 31) = true then 1 else 0) := by
  unfold PFIC_GetActive
  simp only [irq_reg_eq hI, irq_num_eq hI, dif_pos hi, bitTest_eq _ _ (and_31_lt IRQn)]

theorem ite_one_zero (c : Prop) [Decidable c] :
    ((if c then 1 else 0 : Nat) = 0 ∨ (if c then 1 else 0 : Nat) = 1) ∧
    ((if c then 1 else 0 : Nat) = 1 ↔ c) := by
  by_cases h : c <;> simp [h]

/-- C19: for every register-bank state and every IRQn in [0, 255], each of
`PFIC_GetStatusIRQ`, `PFIC_GetPendingIRQ` and `PFIC_GetActive` returns a value, the
value is 0 or 1, and it is 1 if and only if bit `IRQn & 31` of word `IRQn >> 5` of
ISR, IPR and IACTR respectively is set.  The three functions only load: they yield
a value and no new register bank. -/
theorem C19_status_queries (s : PFIC_Type) (IRQn : Nat) (hI : IRQn ≤ 255) :
    ∃ (hi : IRQn >>> 5 < 8) (r₁ r₂ r₃ : Nat),
      PFIC_GetStatusIRQ s IRQn = some r₁ ∧
      PFIC_GetPendingIRQ s IRQn = some r₂ ∧
      PFIC_GetActive s IRQn = some r₃ ∧
      (r₁ = 0 ∨ r₁ = 1) ∧ (r₂ = 0 ∨ r₂ = 1) ∧ (r₃ = 0 ∨ r₃ = 1) ∧
      (r₁ = 1 ↔ (s.ISR ⟨IRQn >>> 5, hi⟩).testBit (IRQn &&& 31) = true) ∧
      (r₂ = 1 ↔ (s.IPR ⟨IRQn >>> 5, hi⟩).testBit (IRQn &&& 31) = true) ∧
      (r₃ = 1 ↔ (s.IACTR ⟨IRQn >>> 5, hi⟩).testBit (IRQn &&& 31) = true) := by
  have hi := irqn_shr5_lt hI
  exact ⟨hi, _, _, _, getStatusIRQ_spec s IRQn hI hi, getPendingIRQ_spec s IRQn hI hi,
    getActive_spec s IRQn hI hi, (ite_one_zero _).1, (ite_one_zero _).1,
    (ite_one_zero _).1, (ite_one_zero _).2, (ite_one_zero _).2, (ite_one_zero _).2⟩

/-- Witness for C19: line 37 on a bank in which it is enabled and active but not
pending. -/
theorem C19_status_queries_witness :
    (37 : Nat) ≤ 255 ∧
    ∃ (hi : 37 >>> 5 < 8) (r₁ r₂ r₃ : Nat),
      PFIC_GetStatusIRQ busyState 37 = some r₁ ∧
      PFIC_GetPendingIRQ busyState 37 = some r₂ ∧
      PFIC_GetActive busyState 37 = some r₃ ∧
      (r₁ = 0 ∨ r₁ = 1) ∧ (r₂ = 0 ∨ r₂ = 1) ∧ (r₃ = 0 ∨ r₃ = 1) ∧
      (r₁ = 1 ↔ (busyState.ISR ⟨37 >>> 5, hi⟩).testBit (37 &&& 31) = true) ∧
      (r₂ = 1 ↔ (busyState.IPR ⟨37 >>> 5, hi⟩).testBit (37 &&& 31) = true) ∧
      (r₃ = 1 ↔ (busyState.IACTR ⟨37 >>> 5, hi⟩).testBit (37 &&& 31) = true) :=
  ⟨by decide, C19_status_queries busyState 37 (by decide)⟩

/-! ### Disabling a fast channel -/

theorem disableFastIRQ_VTFADDRR (s : PFIC_Type) (channel : Nat) :
    (PFIC_DisableFastIRQ s channel).VTFADDRR =
      setIdx s.VTFADDRR (vtfIndex channel)
        (s.VTFADDRR (vtfIndex channel) &&& not32 PFIC_VTFADDRR_VTFEN) := rfl

theorem testBit_and_not32_one (v i : Nat) :
    (v &&& not32 1).testBit i = (v.testBit i && (decide (i < 32) && !decide (i = 0))) := by
  rw [Nat.testBit_and, testBit_not32, testBit_one_eq]

theorem or_one_and_not32_one (v : Nat) : (v ||| 1) &&& not32 1 = v &&& not32 1 := by
  apply Nat.eq_of_testBit_eq
  intro i
  rw [testBit_and_not32_one, testBit_and_not32_one, Nat.testBit_or, testBit_one_eq]
  by_cases h0 : i = 0 <;> simp [h0]

theorem and_not32_one_of_clear {v : Nat} (h0 : v.testBit 0 = false) (hv : v < 2 ^ 32) :
    v &&& not32 1 = v := by
  apply Nat.eq_of_testBit_eq
  intro i
  rw [testBit_and_not32_one]
  by_cases hi0 : i = 0
  · subst hi0
    simp [h0]
  · by_cases h32 : i < 32
    · simp [hi0, h32]
    · have : v.testBit i = false :=
        Nat.testBit_lt_two_pow
          (Nat.lt_of_lt_of_le hv (Nat.pow_le_pow_right (by norm_num) (by omega)))
      simp [this]

theorem setIdx_self {n : Nat} (a : Fin n → Nat) (i : Fin n) : setIdx a i (a i) = a := by
  funext j
  by_cases h : j = i
  · subst h; exact setIdx_same _ _ _
  · exact setIdx_other _ _ _ _ h

theorem disable_enable_eq (s : PFIC_Type) (channel : Nat) :
    PFIC_DisableFastIRQ (PFIC_EnableFastIRQ s channel) channel =
      PFIC_DisableFastIRQ s channel := by
  have h : (PFIC_DisableFastIRQ (PFIC_EnableFastIRQ s channel) channel).VTFADDRR =
      (PFIC_DisableFastIRQ s channel).VTFADDRR := by
    rw [disableFastIRQ_VTFADDRR, disableFastIRQ_VTFADDRR, enableFastIRQ_VTFADDRR,
      setIdx_same, setIdx_setIdx, PFIC_VTFADDRR_VTFEN, or_one_and_not32_one]
  show ({ PFIC_EnableFastIRQ s channel with
      VTFADDRR := (PFIC_DisableFastIRQ (PFIC_EnableFastIRQ s channel) channel).VTFADDRR } :
        PFIC_Type) = { s with VTFADDRR := (PFIC_DisableFastIRQ s channel).VTFADDRR }
  rw [h]
  rfl

/-- C20: for every register-bank state and every channel in 0..3,
`PFIC_DisableFastIRQ(channel)` clears bit 0 of `VTFADDRR[channel]` and leaves bits
31..1 of that register and the other three `VTFADDRR` registers unchanged;
`PFIC_EnableFastIRQ(channel)` followed by `PFIC_DisableFastIRQ(channel)` yields the
same state as `PFIC_DisableFastIRQ(channel)` alone, which is the original state
whenever the channel was disabled to begin with (the register holding a 32-bit
value). -/
theorem C20_disableFastIRQ (s : PFIC_Type) (channel : Nat) (hc : channel ≤ 3) :
    ∃ hc4 : channel < 4,
      ((PFIC_DisableFastIRQ s channel).VTFADDRR ⟨channel, hc4⟩).testBit 0 = false ∧
      (∀ i, 1 ≤ i → i ≤ 31 →
        ((PFIC_DisableFastIRQ s channel).VTFADDRR ⟨channel, hc4⟩).testBit i =
          (s.VTFADDRR ⟨channel, hc4⟩).testBit i) ∧
      (∀ j : Fin 4, j.val ≠ channel →
        (PFIC_DisableFastIRQ s channel).VTFADDRR j = s.VTFADDRR j) ∧
      PFIC_DisableFastIRQ (PFIC_EnableFastIRQ s channel) channel =
        PFIC_DisableFastIRQ s channel ∧
      ((s.VTFADDRR ⟨channel, hc4⟩).testBit 0 = false → s.VTFADDRR ⟨channel, hc4⟩ < 2 ^ 32 →
        PFIC_DisableFastIRQ (PFIC_EnableFastIRQ s channel) channel = s) := by
  refine ⟨Nat.lt_succ_of_le hc, ?_, ?_, ?_, disable_enable_eq s channel, ?_⟩
  · rw [disableFastIRQ_VTFADDRR, vtfIndex_of_le hc, setIdx_same, PFIC_VTFADDRR_VTFEN,
      testBit_and_not32_one]
    simp
  · intro i h1 h31
    rw [disableFastIRQ_VTFADDRR, vtfIndex_of_le hc, setIdx_same, PFIC_VTFADDRR_VTFEN,
      testBit_and_not32_one]
    have h0 : ¬ i = 0 := by omega
    have h32 : i < 32 := by omega
    simp [h0, h32]
  · intro j hj
    rw [disableFastIRQ_VTFADDRR, vtfIndex_of_le hc]
    exact setIdx_other _ _ _ _ (fun h => hj (congrArg Fin.val h))
  · intro h0 hv
    rw [disable_enable_eq]
    have h : (PFIC_DisableFastIRQ s channel).VTFADDRR = s.VTFADDRR := by
      rw [disableFastIRQ_VTFADDRR, vtfIndex_of_le hc, PFIC_VTFADDRR_VTFEN,
        and_not32_one_of_clear h0 hv, setIdx_self]
    show ({ s with VTFADDRR := (PFIC_DisableFastIRQ s channel).VTFADDRR } : PFIC_Type) = s
    rw [h]

/-- Witness for C20: channel 2 of a bank in which that channel was configured (and
so is disabled) and the other channels are enabled. -/
theorem C20_disableFastIRQ_witness :
    (2 : Nat) ≤ 3 ∧
    ∃ hc4 : 2 < 4,
      ((PFIC_DisableFastIRQ (PFIC_ConfigFastIRQ enabledState 2 0x08001234 38) 2).VTFADDRR
        ⟨2, hc4⟩).testBit 0 = false ∧
      PFIC_DisableFastIRQ
          (PFIC_EnableFastIRQ (PFIC_ConfigFastIRQ enabledState 2 0x08001234 38) 2) 2 =
        PFIC_DisableFastIRQ (PFIC_ConfigFastIRQ enabledState 2 0x08001234 38) 2 ∧
      PFIC_DisableFastIRQ
          (PFIC_EnableFastIRQ (PFIC_ConfigFastIRQ enabledState 2 0x08001234 38) 2) 2 =
        PFIC_ConfigFastIRQ enabledState 2 0x08001234 38 :=
  ⟨by decide,
    (C20_disableFastIRQ (PFIC_ConfigFastIRQ enabledState 2 0x08001234 38) 2 (by decide)).imp
      (fun _ h => ⟨h.1, h.2.2.2.1,
        h.2.2.2.2
          (show ((PFIC_ConfigFastIRQ enabledState 2 0x08001234 38).VTFADDRR 2).testBit 0 =
            false by decide)
          (show (PFIC_ConfigFastIRQ enabledState 2 0x08001234 38).VTFADDRR 2 < 2 ^ 32 by
            decide)⟩)⟩

/-! ### Sequential priority updates -/

/-- The register bank after a successful `PFIC_SetPriority`, bit by bit: only
`IPRIOR` differs from the bank before, and in it only the word `IRQn >> 2`. -/
theorem setPriority_bits (s : PFIC_Type) (IRQn p : Nat) (hi : IRQn >>> 2 < 64) :
    ∃ t : PFIC_Type, PFIC_SetPriority s IRQn p = some t ∧
      t = { s with IPRIOR := t.IPRIOR } ∧
      ∀ (j : Fin 64) (i : Nat), (t.IPRIOR j).testBit i =
        (if j.val = IRQn >>> 2 then
          (decide (i < 32) &&
            (if 8 * (IRQn % 4) ≤ i ∧ i < 8 * (IRQn % 4) + 8
              then (p &&& 0xC0).testBit (i - 8 * (IRQn % 4))
              else (s.IPRIOR j).testBit i))
        else (s.IPRIOR j).testBit i) := by
  obtain ⟨w, hw, hbits⟩ := setPriority_spec s IRQn p hi
  refine ⟨_, hw, rfl, ?_⟩
  intro j i
  by_cases hj : j = ⟨IRQn >>> 2, hi⟩
  · subst hj
    simp only [setIdx_same, if_true]
    exact hbits i
  · have hv : ¬ j.val = IRQn >>> 2 := fun e => hj (Fin.ext e)
    simp only [setIdx_other _ _ _ _ hj, if_neg hv]

theorem state_eq_of_IPRIOR {s t t' : PFIC_Type} (h : t = { s with IPRIOR := t.IPRIOR })
    (h' : t' = { s with IPRIOR := t'.IPRIOR }) (e : t.IPRIOR = t'.IPRIOR) : t = t' :=
  calc t = { s with IPRIOR := t.IPRIOR } := h
    _ = { s with IPRIOR := t'.IPRIOR } := by rw [e]
    _ = t' := h'.symm

theorem shape_trans {s t u : PFIC_Type} (h : t = { s with IPRIOR := t.IPRIOR })
    (h' : u = { t with IPRIOR := u.IPRIOR }) : u = { s with IPRIOR := u.IPRIOR } :=
  calc u = { t with IPRIOR := u.IPRIOR } := h'
    _ = { ({ s with IPRIOR := t.IPRIOR } : PFIC_Type) with IPRIOR := u.IPRIOR } := by
      rw [← h]
    _ = { s with IPRIOR := u.IPRIOR } := rfl

/-- Two field replacements at disjoint places of the register array commute. -/
theorem replace_comm (c ja jb ina inb : Prop) [Decidable c] [Decidable ja] [Decidable jb]
    [Decidable ina] [Decidable inb] (pa pb v : Bool)
    (hdis : ¬ (ja ∧ jb ∧ ina ∧ inb)) :
    (if jb then (decide c && (if inb then pb
        else (if ja then (decide c && (if ina then pa else v)) else v)))
      else (if ja then (decide c && (if ina then pa else v)) else v)) =
    (if ja then (decide c && (if ina then pa
        else (if jb then (decide c && (if inb then pb else v)) else v)))
      else (if jb then (decide c && (if inb then pb else v)) else v)) := by
  by_cases h1 : ja <;> by_cases h2 : jb <;> by_cases h3 : ina <;> by_cases h4 : inb <;>
    by_cases h5 : c <;> simp_all

/-- A second field replacement at the same place overrides the first. -/
theorem replace_twice (c ja ina : Prop) [Decidable c] [Decidable ja] [Decidable ina]
    (pa qa v : Bool) :
    (if ja then (decide c && (if ina then qa
        else (if ja then (decide c && (if ina then pa else v)) else v)))
      else (if ja then (decide c && (if ina then pa else v)) else v)) =
    (if ja then (decide c && (if ina then qa else v)) else v) := by
  by_cases h1 : ja <;> by_cases h3 : ina <;> by_cases h5 : c <;> simp [h1, h3, h5]

/-- C21: for every register-bank state, all IRQn `a`, `b` in [0, 255] and all
priorities `p`, `q`: if `a ≠ b`, running `PFIC_SetPriority(a, p)` then
`PFIC_SetPriority(b, q)` succeeds and yields the same state as running them in the
opposite order; and for one line the last call wins: `PFIC_SetPriority(a, p)` then
`PFIC_SetPriority(a, q)` yields the same state as `PFIC_SetPriority(a, q)` alone. -/
theorem C21_setPriority_commute (s : PFIC_Type) (a b p q : Nat)
    (ha : a ≤ 255) (hb : b ≤ 255) :
    (a ≠ b → ∃ t : PFIC_Type,
      (PFIC_SetPriority s a p).bind (fun s1 => PFIC_SetPriority s1 b q) = some t ∧
      (PFIC_SetPriority s b q).bind (fun s1 => PFIC_SetPriority s1 a p) = some t) ∧
    (∃ t : PFIC_Type,
      (PFIC_SetPriority s a p).bind (fun s1 => PFIC_SetPriority s1 a q) = some t ∧
      PFIC_SetPriority s a q = some t) := by
  have hia := irqn_shr2_lt ha
  have hib := irqn_shr2_lt hb
  obtain ⟨ta, ea, sa, ba⟩ := setPriority_bits s a p hia
  obtain ⟨tab, eab, sab, bab⟩ := setPriority_bits ta b q hib
  obtain ⟨tb, eb, sb, bb⟩ := setPriority_bits s b q hib
  obtain ⟨tba, eba, sba, bba⟩ := setPriority_bits tb a p hia
  obtain ⟨taq, eaq, saq, baq⟩ := setPriority_bits s a q hia
  obtain ⟨taa, eaa, saa, baa⟩ := setPriority_bits ta a q hia
  constructor
  · intro hne
    refine ⟨tab, by rw [ea, Option.some_bind, eab], ?_⟩
    rw [eb, Option.some_bind, eba]
    apply congrArg some
    apply state_eq_of_IPRIOR (shape_trans sb sba) (shape_trans sa sab)
    funext j
    apply Nat.eq_of_testBit_eq
    intro i
    rw [bba, bab, bb, ba]
    have hdis : ¬ (j.val = a >>> 2 ∧ j.val = b >>> 2 ∧
        (8 * (a % 4) ≤ i ∧ i < 8 * (a % 4) + 8) ∧
        (8 * (b % 4) ≤ i ∧ i < 8 * (b % 4) + 8)) := by
      rintro ⟨h1, h2, h3, h4⟩
      have h12 : a >>> 2 = b >>> 2 := h1.symm.trans h2
      rw [Nat.shiftRight_eq_div_pow, Nat.shiftRight_eq_div_pow] at h12
      omega
    exact (replace_comm _ _ _ _ _ _ _ _ hdis).symm
  · refine ⟨taa, by rw [ea, Option.some_bind, eaa], ?_⟩
    rw [eaq]
    apply congrArg some
    apply state_eq_of_IPRIOR saq (shape_trans sa saa)
    funext j
    apply Nat.eq_of_testBit_eq
    intro i
    rw [baq, baa, ba]
    exact (replace_twice _ _ _ _ _ _).symm

/-- Witness for C21: lines 5 and 6, which share `IPRIOR[1]`, on a bank whose
priority bytes are all `0xC0`. -/
theorem C21_setPriority_commute_witness :
    (5 : Nat) ≤ 255 ∧ (6 : Nat) ≤ 255 ∧
    (∃ t : PFIC_Type,
      (PFIC_SetPriority enabledState 5 0x80).bind
        (fun s1 => PFIC_SetPriority s1 6 0x40) = some t ∧
      (PFIC_SetPriority enabledState 6 0x40).bind
        (fun s1 => PFIC_SetPriority s1 5 0x80) = some t) ∧
    (∃ t : PFIC_Type,
      (PFIC_SetPriority enabledState 5 0x80).bind
        (fun s1 => PFIC_SetPriority s1 5 0x40) = some t ∧
      PFIC_SetPriority enabledState 5 0x40 = some t) :=
  ⟨by decide, by decide,
    (C21_setPriority_commute enabledState 5 6 0x80 0x40 (by decide) (by decide)).1
      (by decide),
    (C21_setPriority_commute enabledState 5 6 0x80 0x40 (by decide) (by decide)).2⟩

/-! ### Index and shift bounds -/

theorem shl3_and_3 (y : Nat) : (y &&& 3) <<< 3 = 8 * (y % 4) := by
  rw [and_3_eq_mod, Nat.shiftLeft_eq]
  omega

theorem shift_cases (y : Nat) :
    8 * (y % 4) = 0 ∨ 8 * (y % 4) = 8 ∨ 8 * (y % 4) = 16 ∨ 8 * (y % 4) = 24 := by
  omega

/-- C22: under the documented input ranges every register-array index the driver
computes is in bounds.  For every IRQn in [0, 255]: `PFIC_IRQn_REG(IRQn)` is
`IRQn >> 5` and is below 8, `PFIC_IRQn_NUM(IRQn)` is `IRQn & 31` and is below 32,
`IRQn >> 2` is below 64, and every driver function indexed by IRQn stays inside its
register array (it yields a result).  For every 8-bit channel the index
`channel & 3` is below 4.  The bounds 8, 64 and 4 are the declared lengths of the
register arrays.  The shift amounts `(IRQn & 3) << 3` and
`(channel & 3) << 3`, as held in `ucShf`, are one of 0, 8, 16, 24 and so below 32. -/
theorem C22_indices_in_bounds (s : PFIC_Type) (IRQn channel priority : Nat)
    (hI : IRQn ≤ 255) (hc : channel < 256) :
    (PFIC_IRQn_REG IRQn = IRQn >>> 5 ∧ IRQn >>> 5 < 8) ∧
    (PFIC_IRQn_NUM IRQn = IRQn &&& 31 ∧ IRQn &&& 31 < 32) ∧
    IRQn >>> 2 < 64 ∧
    ((vtfIndex channel).val = channel &&& 3 ∧ channel &&& 3 < 4) ∧
    (countof .ISR = some 8 ∧ countof .IPR = some 8 ∧ countof .IENR = some 8 ∧
      countof .IRER = some 8 ∧ countof .IPSR = some 8 ∧ countof .IPRR = some 8 ∧
      countof .IACTR = some 8 ∧ countof .IPRIOR = some 64 ∧
      countof .VTFADDRR = some 4) ∧
    (u8 (shl32 (u32 IRQn &&& 0x3) 3) = (IRQn &&& 3) <<< 3 ∧
      ((IRQn &&& 3) <<< 3 = 0 ∨ (IRQn &&& 3) <<< 3 = 8 ∨
        (IRQn &&& 3) <<< 3 = 16 ∨ (IRQn &&& 3) <<< 3 = 24) ∧
      (IRQn &&& 3) <<< 3 < 32) ∧
    (u8 (shl32 (u8 channel &&& 0x3) 3) = (channel &&& 3) <<< 3 ∧
      ((channel &&& 3) <<< 3 = 0 ∨ (channel &&& 3) <<< 3 = 8 ∨
        (channel &&& 3) <<< 3 = 16 ∨ (channel &&& 3) <<< 3 = 24) ∧
      (channel &&& 3) <<< 3 < 32) ∧
    (PFIC_EnableIRQ s IRQn).isSome = true ∧
    (PFIC_DisableIRQ s IRQn).isSome = true ∧
    (PFIC_GetStatusIRQ s IRQn).isSome = true ∧
    (PFIC_GetPendingIRQ s IRQn).isSome = true ∧
    (PFIC_SetPendingIRQ s IRQn).isSome = true ∧
    (PFIC_ClearPendingIRQ s IRQn).isSome = true ∧
    (PFIC_GetActive s IRQn).isSome = true ∧
    (PFIC_SetPriority s IRQn priority).isSome = true := by
  have hi5 := irqn_shr5_lt hI
  have hi2 := irqn_shr2_lt hI
  have hu8 : u8 channel = channel := Nat.mod_eq_of_lt hc
  refine ⟨⟨irq_reg_eq hI, hi5⟩, ⟨irq_num_eq hI, and_31_lt IRQn⟩, hi2, ⟨?_, ?_⟩,
    by decide, ⟨?_, ?_, ?_⟩, ⟨?_, ?_, ?_⟩, ?_, ?_, ?_, ?_, ?_, ?_, ?_, ?_⟩
  · show u8 channel &&& 0x3 = channel &&& 3
    rw [hu8]
  · rw [and_3_eq_mod]; omega
  · rw [ucShf_eq, shl3_and_3, u32]; omega
  · rw [shl3_and_3]; exact shift_cases IRQn
  · rw [shl3_and_3]; omega
  · rw [ucShf_eq, shl3_and_3, hu8]
  · rw [shl3_and_3]; exact shift_cases channel
  · rw [shl3_and_3]; omega
  · rw [enableIRQ_spec s IRQn hI hi5]; rfl
  · rw [disableIRQ_spec s IRQn hI hi5]; rfl
  · rw [getStatusIRQ_spec s IRQn hI hi5]; rfl
  · rw [getPendingIRQ_spec s IRQn hI hi5]; rfl
  · rw [setPendingIRQ_spec s IRQn hI hi5]; rfl
  · rw [clearPendingIRQ_spec s IRQn hI hi5]; rfl
  · rw [getActive_spec s IRQn hI hi5]; rfl
  · obtain ⟨w, hw, _⟩ := setPriority_spec s IRQn priority hi2
    rw [hw]; rfl

/-- Witness for C22: the largest line number, 255, and the largest 8-bit channel
value, 255. -/
theorem C22_indices_in_bounds_witness :
    (255 : Nat) ≤ 255 ∧ (255 : Nat) < 256 ∧
    (PFIC_IRQn_REG 255 = 255 >>> 5 ∧ 255 >>> 5 < 8) ∧
    (PFIC_IRQn_NUM 255 = 255 &&& 31 ∧ 255 &&& 31 < 32) ∧
    255 >>> 2 < 64 ∧
    ((vtfIndex 255).val = 255 &&& 3 ∧ 255 &&& 3 < 4) ∧
    (PFIC_EnableIRQ resetState 255).isSome = true ∧
    (PFIC_SetPriority resetState 255 0xFF).isSome = true :=
  ⟨by decide, by decide,
    (C22_indices_in_bounds resetState 255 255 0xFF (by decide) (by decide)).1,
    (C22_indices_in_bounds resetState 255 255 0xFF (by decide) (by decide)).2.1,
    (C22_indices_in_bounds resetState 255 255 0xFF (by decide) (by decide)).2.2.1,
    (C22_indices_in_bounds resetState 255 255 0xFF (by decide) (by decide)).2.2.2.1,
    (C22_indices_in_bounds resetState 255 255 0xFF (by decide)
      (by decide)).2.2.2.2.2.2.2.1,
    (C22_indices_in_bounds resetState 255 255 0xFF (by decide)
      (by decide)).2.2.2.2.2.2.2.2.2.2.2.2.2.2⟩

end CoreRiscv
